import Mathlib

/-!
Verification of the KU student-data pipeline (src/load_and_transform.py).

The pipeline's tables are shallowly embedded as Lean lists of record rows;
SQL NULL is `Option.none`.  SQL expression semantics are modelled explicitly:
`=` in join/filter conditions rejects NULL operands (`sqlEqInt`, `sqlEqStr`),
while GROUP BY places all NULLs of a column in one group (plain `Option`
equality on group keys).  `SUM` ignores NULLs and returns NULL on an all-NULL
group.  ORDER BY follows DuckDB's default NULLS LAST placement.

`ROW_NUMBER() OVER (PARTITION BY k ORDER BY c)` where `c` is constant on each
partition (the situation in every deduplication query of the source: the ORDER
BY column is part of the partition key) numbers the rows of each partition in
input order, which is DuckDB's stable behaviour for tied sort keys.
-/

namespace KU

/-- A row of the `student` table: EMPLID, LAST_NAME, and the `rn` column that
the duplicate-repair query appends (absent, i.e. `none`, on freshly loaded
tables). -/
structure StudentRow where
  emplid : Option Int
  last_name : Option String
  rn : Option Nat := none
deriving DecidableEq

/-- A row of the `acad_prog` table: EMPLID, ACAD_PROG, EFFDT, plus the
optional `rn` column. -/
structure AcadProgRow where
  emplid : Option Int
  acad_prog : Option String
  effdt : Option String
  rn : Option Nat := none
deriving DecidableEq

/-- A row of the `departments` table: DEPT_CODE, DEPT_NAME, CONTACT_PERSON,
plus the optional `rn` column. -/
structure DepartmentRow where
  dept_code : Option String
  dept_name : Option String
  contact_person : Option String
  rn : Option Nat := none
deriving DecidableEq

/-- A row of the `enrollments` table: EMPLID, STRM, DEPARTMENT, CREDIT_HOURS,
COURSE_ID, CLASS_NBR, plus the optional `rn` column. -/
structure EnrollmentRow where
  emplid : Option Int
  strm : Option String
  department : Option String
  credit_hours : Option Int
  course_id : Option String
  class_nbr : Option Int
  rn : Option Nat := none
deriving DecidableEq

/-- Whether the COURSE_ID / CLASS_NBR columns exist in the loaded
`enrollments` table; the source discovers this with DESCRIBE and adjusts the
natural key accordingly. -/
structure EnrSchema where
  hasCourseId : Bool
  hasClassNbr : Bool
deriving DecidableEq

/-- The four-table workspace the pipeline operates on. -/
structure Tables where
  student : List StudentRow
  acad_prog : List AcadProgRow
  departments : List DepartmentRow
  enrollments : List EnrollmentRow
deriving DecidableEq

/-- SQL `=` on integer columns: NULL compares false with everything. -/
def sqlEqInt : Option Int → Option Int → Bool
  | some a, some b => a == b
  | _, _ => false

/-- SQL `=` on string columns: NULL compares false with everything. -/
def sqlEqStr : Option String → Option String → Bool
  | some a, some b => a == b
  | _, _ => false

/-- The natural key of an `enrollments` row: (EMPLID, STRM) plus COURSE_ID /
CLASS_NBR when those columns exist (mirrors the DESCRIBE-driven key discovery
in `validate_data_quality` and `clean_data_quality_issues`). -/
def enrKey (sch : EnrSchema) (e : EnrollmentRow) :
    Option Int × Option String × Option (Option String) × Option (Option Int) :=
  (e.emplid, e.strm,
   if sch.hasCourseId then some e.course_id else none,
   if sch.hasClassNbr then some e.class_nbr else none)

/-- `GROUP BY key HAVING COUNT(*) > 1` is non-empty: some key group has at
least two rows. -/
def hasDupBy {α κ : Type} [DecidableEq κ] (key : α → κ) (l : List α) : Bool :=
  l.any (fun a => decide (2 ≤ (l.filter (fun b => key b = key a)).length))

/-- The issue dictionary returned by `validate_data_quality`, one presence
flag per issue key the source can insert. -/
structure Issues where
  duplicate_students : Bool
  duplicate_acad_prog : Bool
  duplicate_departments : Bool
  duplicate_enrollments : Bool
  orphaned_acad_prog : Bool
  orphaned_enrollments_student : Bool
  orphaned_enrollments_dept : Bool
  null_student_emplid : Bool
  null_student_last_name : Bool
  null_enrollments_emplid : Bool
  null_enrollments_strm : Bool
  null_enrollments_credit_hours : Bool
  null_departments_dept_code : Bool
  invalid_credit_hours : Bool
  empty_student_names : Bool
  students_no_enrollments : Bool
deriving DecidableEq

/-- `if not issues` in the source: the dictionary is non-empty iff some flag
is set. -/
def Issues.anyFlag (i : Issues) : Bool :=
  i.duplicate_students || i.duplicate_acad_prog || i.duplicate_departments ||
  i.duplicate_enrollments || i.orphaned_acad_prog ||
  i.orphaned_enrollments_student || i.orphaned_enrollments_dept ||
  i.null_student_emplid || i.null_student_last_name ||
  i.null_enrollments_emplid || i.null_enrollments_strm ||
  i.null_enrollments_credit_hours || i.null_departments_dept_code ||
  i.invalid_credit_hours || i.empty_student_names || i.students_no_enrollments

/-- Some issue of severity `error` is present: every issue key except
`students_no_enrollments` (the only one the source tags `severity: warning`). -/
def Issues.hasError (i : Issues) : Bool :=
  i.duplicate_students || i.duplicate_acad_prog || i.duplicate_departments ||
  i.duplicate_enrollments || i.orphaned_acad_prog ||
  i.orphaned_enrollments_student || i.orphaned_enrollments_dept ||
  i.null_student_emplid || i.null_student_last_name ||
  i.null_enrollments_emplid || i.null_enrollments_strm ||
  i.null_enrollments_credit_hours || i.null_departments_dept_code ||
  i.invalid_credit_hours || i.empty_student_names

/-- Check 9's row condition `CREDIT_HOURS < 0 OR CREDIT_HOURS > 30` (NULL
satisfies neither comparison). -/
def invalidCH (c : Option Int) : Bool :=
  match c with
  | some v => decide (v < 0) || decide (30 < v)
  | none => false

/-- SQL `TRIM`: strip space characters from both ends (DuckDB's default
trim set). -/
def sqlTrim (s : String) : String :=
  ⟨((s.data.dropWhile (fun c => c == ' ')).reverse.dropWhile
      (fun c => c == ' ')).reverse⟩

/-- Check 10's row condition `TRIM(LAST_NAME) = '' OR LAST_NAME IS NULL`. -/
def emptyName (n : Option String) : Bool :=
  match n with
  | some s => sqlTrim s == ""
  | none => true

/-- `validate_data_quality`: runs the eleven checks and returns
`(is_valid, issues)`; exactly as in the source, `is_valid` is true iff the
issue dictionary is empty (severity is recorded but not consulted). -/
def validate_data_quality (sch : EnrSchema) (t : Tables) : Bool × Issues :=
  let iss : Issues :=
    { duplicate_students := hasDupBy (fun s => s.emplid) t.student
      duplicate_acad_prog := hasDupBy (fun a => a) t.acad_prog
      duplicate_departments := hasDupBy (fun d => d.dept_code) t.departments
      duplicate_enrollments := hasDupBy (enrKey sch) t.enrollments
      orphaned_acad_prog :=
        t.acad_prog.any (fun a => !(t.student.any (fun s => sqlEqInt a.emplid s.emplid)))
      orphaned_enrollments_student :=
        t.enrollments.any (fun e => !(t.student.any (fun s => sqlEqInt e.emplid s.emplid)))
      orphaned_enrollments_dept :=
        t.enrollments.any (fun e => !(t.departments.any (fun d => sqlEqStr e.department d.dept_code)))
      null_student_emplid := t.student.any (fun s => s.emplid.isNone)
      null_student_last_name := t.student.any (fun s => s.last_name.isNone)
      null_enrollments_emplid := t.enrollments.any (fun e => e.emplid.isNone)
      null_enrollments_strm := t.enrollments.any (fun e => e.strm.isNone)
      null_enrollments_credit_hours := t.enrollments.any (fun e => e.credit_hours.isNone)
      null_departments_dept_code := t.departments.any (fun d => d.dept_code.isNone)
      invalid_credit_hours := t.enrollments.any (fun e => invalidCH e.credit_hours)
      empty_student_names := t.student.any (fun s => emptyName s.last_name)
      students_no_enrollments :=
        t.student.any (fun s => !(t.enrollments.any (fun e => sqlEqInt s.emplid e.emplid))) }
  (!iss.anyFlag, iss)

/-- `ROW_NUMBER() OVER (PARTITION BY key ...)` in input order, with `seen`
the rows already numbered: each row is paired with one plus the number of
earlier rows sharing its key. -/
def rowNumbersFrom {α κ : Type} [DecidableEq κ] (key : α → κ) :
    List α → List α → List (α × Nat)
  | _, [] => []
  | seen, a :: l =>
    (a, (seen.filter (fun b => key b = key a)).length + 1) ::
      rowNumbersFrom key (seen ++ [a]) l

/-- One duplicate-repair query
`SELECT * FROM (SELECT *, ROW_NUMBER() OVER (PARTITION BY key ORDER BY c) rn FROM t) WHERE rn = 1`
(with `c` constant per partition): keep the first row of each key group and
keep the computed `rn` column (written into the row by `setRn`). -/
def dedupKeepFirst {α κ : Type} [DecidableEq κ] (key : α → κ) (setRn : α → Nat → α)
    (l : List α) : List α :=
  ((rowNumbersFrom key [] l).filter (fun p => p.2 == 1)).map (fun p => setRn p.1 p.2)

def setRnStudent (s : StudentRow) (n : Nat) : StudentRow := { s with rn := some n }

def setRnAcad (a : AcadProgRow) (n : Nat) : AcadProgRow := { a with rn := some n }

def setRnDept (d : DepartmentRow) (n : Nat) : DepartmentRow := { d with rn := some n }

def setRnEnr (e : EnrollmentRow) (n : Nat) : EnrollmentRow := { e with rn := some n }

/-- `SELECT a.* FROM acad_prog a INNER JOIN student s ON a.EMPLID = s.EMPLID`. -/
def innerJoinAcadStudent (acad : List AcadProgRow) (stu : List StudentRow) :
    List AcadProgRow :=
  acad.flatMap (fun a => (stu.filter (fun s => sqlEqInt a.emplid s.emplid)).map (fun _ => a))

/-- `SELECT e.* FROM enrollments e INNER JOIN student s ON e.EMPLID = s.EMPLID`. -/
def innerJoinEnrStudent (enr : List EnrollmentRow) (stu : List StudentRow) :
    List EnrollmentRow :=
  enr.flatMap (fun e => (stu.filter (fun s => sqlEqInt e.emplid s.emplid)).map (fun _ => e))

/-- `SELECT e.* FROM enrollments e INNER JOIN departments d ON e.DEPARTMENT = d.DEPT_CODE`. -/
def innerJoinEnrDept (enr : List EnrollmentRow) (deps : List DepartmentRow) :
    List EnrollmentRow :=
  enr.flatMap (fun e => (deps.filter (fun d => sqlEqStr e.department d.dept_code)).map (fun _ => e))

/-- Repair 9's CASE expression: clamp CREDIT_HOURS into [0, 30]; NULL stays
NULL (the CASE falls through to ELSE). -/
def clampCH (c : Option Int) : Option Int :=
  c.map (fun v => if v < 0 then 0 else if 30 < v then 30 else v)

/-- Repair 9 applied to one row: only CREDIT_HOURS changes. -/
def clampRow (e : EnrollmentRow) : EnrollmentRow :=
  { e with credit_hours := clampCH e.credit_hours }

/-- Cleaner step 1: remove duplicate students (keep first occurrence per
EMPLID). -/
def cleanStep1 (iss : Issues) (t : Tables) : Tables :=
  if iss.duplicate_students then
    { t with student := dedupKeepFirst (fun s => s.emplid) setRnStudent t.student }
  else t

/-- Cleaner step 2: remove duplicate academic programs — the partition key is
every column of the table (full-row duplicates only). -/
def cleanStep2 (iss : Issues) (t : Tables) : Tables :=
  if iss.duplicate_acad_prog then
    { t with acad_prog := dedupKeepFirst (fun a => a) setRnAcad t.acad_prog }
  else t

/-- Cleaner step 3: remove duplicate departments (by DEPT_CODE). -/
def cleanStep3 (iss : Issues) (t : Tables) : Tables :=
  if iss.duplicate_departments then
    { t with departments := dedupKeepFirst (fun d => d.dept_code) setRnDept t.departments }
  else t

/-- Cleaner step 4: remove duplicate enrollments (by the natural key). -/
def cleanStep4 (sch : EnrSchema) (iss : Issues) (t : Tables) : Tables :=
  if iss.duplicate_enrollments then
    { t with enrollments := dedupKeepFirst (enrKey sch) setRnEnr t.enrollments }
  else t

/-- Cleaner step 5: drop orphaned academic programs via inner join against
the current student table. -/
def cleanStep5 (iss : Issues) (t : Tables) : Tables :=
  if iss.orphaned_acad_prog then
    { t with acad_prog := innerJoinAcadStudent t.acad_prog t.student }
  else t

/-- Cleaner step 6: drop enrollments whose student does not exist. -/
def cleanStep6 (iss : Issues) (t : Tables) : Tables :=
  if iss.orphaned_enrollments_student then
    { t with enrollments := innerJoinEnrStudent t.enrollments t.student }
  else t

/-- Cleaner step 7: drop enrollments whose department does not exist. -/
def cleanStep7 (iss : Issues) (t : Tables) : Tables :=
  if iss.orphaned_enrollments_dept then
    { t with enrollments := innerJoinEnrDept t.enrollments t.departments }
  else t

/-- Null repair for the `null_student_emplid` issue key. -/
def cleanStep8a (iss : Issues) (t : Tables) : Tables :=
  if iss.null_student_emplid then
    { t with student := t.student.filter (fun s => !s.emplid.isNone) } else t

/-- Null repair for the `null_student_last_name` issue key. -/
def cleanStep8b (iss : Issues) (t : Tables) : Tables :=
  if iss.null_student_last_name then
    { t with student := t.student.filter (fun s => !s.last_name.isNone) } else t

/-- Null repair for the `null_enrollments_emplid` issue key. -/
def cleanStep8c (iss : Issues) (t : Tables) : Tables :=
  if iss.null_enrollments_emplid then
    { t with enrollments := t.enrollments.filter (fun e => !e.emplid.isNone) } else t

/-- Null repair for the `null_enrollments_strm` issue key. -/
def cleanStep8d (iss : Issues) (t : Tables) : Tables :=
  if iss.null_enrollments_strm then
    { t with enrollments := t.enrollments.filter (fun e => !e.strm.isNone) } else t

/-- Null repair for the `null_enrollments_credit_hours` issue key. -/
def cleanStep8e (iss : Issues) (t : Tables) : Tables :=
  if iss.null_enrollments_credit_hours then
    { t with enrollments := t.enrollments.filter (fun e => !e.credit_hours.isNone) } else t

/-- Null repair for the `null_departments_dept_code` issue key. -/
def cleanStep8f (iss : Issues) (t : Tables) : Tables :=
  if iss.null_departments_dept_code then
    { t with departments := t.departments.filter (fun d => !d.dept_code.isNone) } else t

/-- Cleaner step 8: for each flagged `null_<table>_<column>` key, drop the
rows where that column IS NULL (six possible keys, applied in the dictionary
insertion order of the source). -/
def cleanStep8 (iss : Issues) (t : Tables) : Tables :=
  cleanStep8f iss (cleanStep8e iss (cleanStep8d iss (cleanStep8c iss
    (cleanStep8b iss (cleanStep8a iss t)))))

/-- Cleaner step 9: clamp invalid credit hours (0 below, 30 above); never
drops a row. -/
def cleanStep9 (iss : Issues) (t : Tables) : Tables :=
  if iss.invalid_credit_hours then
    { t with enrollments := t.enrollments.map clampRow }
  else t

/-- Cleaner step 10: drop students with empty or NULL last names
(`TRIM(LAST_NAME) != '' AND LAST_NAME IS NOT NULL`). -/
def cleanStep10 (iss : Issues) (t : Tables) : Tables :=
  if iss.empty_student_names then
    { t with student := t.student.filter (fun s => !emptyName s.last_name) }
  else t

/-- Repair family: duplicate removal, steps 1–4 of `clean_data_quality_issues`. -/
def repairDuplicates (sch : EnrSchema) (iss : Issues) (t : Tables) : Tables :=
  cleanStep4 sch iss (cleanStep3 iss (cleanStep2 iss (cleanStep1 iss t)))

/-- Repair family: orphan removal, steps 5–7. -/
def repairOrphans (iss : Issues) (t : Tables) : Tables :=
  cleanStep7 iss (cleanStep6 iss (cleanStep5 iss t))

/-- Repair family: null-required-field removal, step 8. -/
def repairNulls (iss : Issues) (t : Tables) : Tables :=
  cleanStep8 iss t

/-- Repair family: credit-hour domain clamp, step 9. -/
def repairClamp (iss : Issues) (t : Tables) : Tables :=
  cleanStep9 iss t

/-- Repair family: empty-name student removal, step 10. -/
def repairEmptyNames (iss : Issues) (t : Tables) : Tables :=
  cleanStep10 iss t

/-- `clean_data_quality_issues`: the repairs in the source's fixed order —
duplicates, orphans, null required fields, domain clamp, empty names.
(`students_no_enrollments` is logged only, never cleaned.) -/
def clean_data_quality_issues (sch : EnrSchema) (t : Tables) (iss : Issues) : Tables :=
  repairEmptyNames iss (repairClamp iss (repairNulls iss (repairOrphans iss
    (repairDuplicates sch iss t))))

/-- First-occurrence key list: the distinct key values of `l` in order of
first appearance (the groups a GROUP BY produces, deterministically ordered). -/
def firstKeys {κ : Type} [DecidableEq κ] : List κ → List κ
  | [] => []
  | k :: ks => k :: (firstKeys ks).filter (fun x => x ≠ k)

/-- GROUP BY: one `(key, rows of that group)` pair per distinct key value;
NULL keys form a group like any other value. -/
def groupsBy {α κ : Type} [DecidableEq κ] (key : α → κ) (l : List α) :
    List (κ × List α) :=
  (firstKeys (l.map key)).map (fun k => (k, l.filter (fun a => key a = k)))

/-- `SUM(CAST(CREDIT_HOURS AS INTEGER))` over a group: NULLs are ignored, an
all-NULL group sums to NULL (groups are never empty). -/
def sqlSumCredits (g : List EnrollmentRow) : Option Int :=
  let vs := g.filterMap (fun e => e.credit_hours)
  match vs with
  | [] => none
  | _ => some (vs.foldl (fun acc v => acc + v) 0)

/-- A row of the `total_credits` view. -/
structure TCRow where
  student_id : Option Int
  term : Option String
  total_credits : Option Int
deriving DecidableEq

/-- The `total_credits` view: credits summed per (EMPLID, STRM). -/
def total_credits (enr : List EnrollmentRow) : List TCRow :=
  (groupsBy (fun e => (e.emplid, e.strm)) enr).map (fun g =>
    { student_id := g.1.1, term := g.1.2, total_credits := sqlSumCredits g.2 })

/-- A row of the `credits_by_dept` view. -/
structure CBDRow where
  student_id : Option Int
  term : Option String
  dept_code : Option String
  dept_credits : Option Int
deriving DecidableEq

/-- The `credits_by_dept` view: credits summed per (EMPLID, STRM, DEPARTMENT). -/
def credits_by_dept (enr : List EnrollmentRow) : List CBDRow :=
  (groupsBy (fun e => (e.emplid, e.strm, e.department)) enr).map (fun g =>
    { student_id := g.1.1, term := g.1.2.1, dept_code := g.1.2.2,
      dept_credits := sqlSumCredits g.2 })

/-- The join underlying `ranked_depts` before windowing: `credits_by_dept`
LEFT JOIN `departments`, with the display name
`COALESCE(d.DEPT_NAME, c.dept_code)` and the contact person carried along. -/
structure RDBase where
  student_id : Option Int
  term : Option String
  dept_code : Option String
  dept_name : Option String
  dept_contact : Option String
  dept_credits : Option Int
deriving DecidableEq

/-- LEFT JOIN of `credits_by_dept` with `departments` on
`c.dept_code = d.DEPT_CODE`; an unmatched left row keeps NULL department
fields (so `COALESCE(d.DEPT_NAME, c.dept_code)` falls back to the code). -/
def cbdJoinDepts (cbd : List CBDRow) (deps : List DepartmentRow) : List RDBase :=
  cbd.flatMap (fun c =>
    let ms := deps.filter (fun d => sqlEqStr c.dept_code d.dept_code)
    match ms with
    | [] => [{ student_id := c.student_id, term := c.term, dept_code := c.dept_code,
               dept_name := c.dept_code, dept_contact := none,
               dept_credits := c.dept_credits }]
    | _ => ms.map (fun d =>
        { student_id := c.student_id, term := c.term, dept_code := c.dept_code,
          dept_name := match d.dept_name with | some nm => some nm | none => c.dept_code,
          dept_contact := d.contact_person, dept_credits := c.dept_credits }))

/-- ORDER BY helper: ascending on an integer column, NULLS LAST. -/
def leOptIntAsc : Option Int → Option Int → Bool
  | some a, some b => decide (a ≤ b)
  | some _, none => true
  | none, some _ => false
  | none, none => true

/-- ORDER BY helper: descending on an integer column, NULLS LAST. -/
def leOptIntDesc : Option Int → Option Int → Bool
  | some a, some b => decide (b ≤ a)
  | some _, none => true
  | none, some _ => false
  | none, none => true

/-- Codepoint comparison of two characters. -/
def charLT (a b : Char) : Bool := decide (a.val.toNat < b.val.toNat)

/-- Lexicographic comparison of character lists by codepoint — DuckDB's
default binary collation for VARCHAR ORDER BY. -/
def strLeChars : List Char → List Char → Bool
  | [], _ => true
  | _ :: _, [] => false
  | a :: as, b :: bs => if a = b then strLeChars as bs else charLT a b

/-- `≤` on strings under binary collation. -/
def strLE (a b : String) : Bool := strLeChars a.data b.data

/-- ORDER BY helper: ascending on a string column, NULLS LAST. -/
def leOptStrAsc : Option String → Option String → Bool
  | some a, some b => strLE a b
  | some _, none => true
  | none, some _ => false
  | none, none => true

/-- The window order of `ranked_depts`:
`ORDER BY c.dept_credits DESC, COALESCE(d.DEPT_NAME, c.dept_code) ASC`. -/
def rdLE (a b : RDBase) : Bool :=
  if a.dept_credits = b.dept_credits then leOptStrAsc a.dept_name b.dept_name
  else leOptIntDesc a.dept_credits b.dept_credits

/-- A row of the `ranked_depts` view (the view does not expose
`dept_credits`; it is consumed by the window order only). -/
structure RDRow where
  student_id : Option Int
  term : Option String
  dept_code : Option String
  dept_name : Option String
  dept_contact : Option String
  rn : Nat
deriving DecidableEq

/-- Project an ordered joined row to a `ranked_depts` row with its row
number. -/
def toRDRow (a : RDBase) (n : Nat) : RDRow :=
  { student_id := a.student_id, term := a.term, dept_code := a.dept_code,
    dept_name := a.dept_name, dept_contact := a.dept_contact, rn := n }

/-- Stable insertion into a sorted list: the new element goes after every
existing element that compares less-or-equal to it, so rows that tie keep
their input order (DuckDB's stable sort for window ORDER BY). -/
def insertStable {α : Type} (le : α → α → Bool) (a : α) : List α → List α
  | [] => [a]
  | b :: l => if le b a then b :: insertStable le a l else a :: b :: l

/-- Stable sort by the Boolean comparator `le` (the ORDER BY of a window or
of the final SELECT). -/
def sortStable {α : Type} (le : α → α → Bool) : List α → List α
  | [] => []
  | a :: l => insertStable le a (sortStable le l)

/-- Assign consecutive row numbers starting at `n` down a sorted partition. -/
def withRn (n : Nat) : List RDBase → List RDRow
  | [] => []
  | a :: l => toRDRow a n :: withRn (n + 1) l

/-- The window partitions of `ranked_depts`: the joined rows grouped by
`(student_id, term)`. -/
def rankedGroups (t : Tables) : List ((Option Int × Option String) × List RDBase) :=
  groupsBy (fun r => (r.student_id, r.term))
    (cbdJoinDepts (credits_by_dept t.enrollments) t.departments)

/-- The `ranked_depts` view: each partition sorted by the window order, rows
numbered from 1. -/
def ranked_depts (t : Tables) : List RDRow :=
  (rankedGroups t).flatMap (fun g => withRn 1 (sortStable rdLE g.2))

/-- A report row, the six output columns in order. -/
structure ReportRow where
  student_id : Option Int
  last_name : Option String
  term : Option String
  total_credits : Option Int
  focused_department_name : Option String
  focused_department_contact : Option String
deriving DecidableEq

/-- `ORDER BY t.student_id, t.term` of the final SELECT. -/
def reportLE (a b : ReportRow) : Bool :=
  if a.student_id = b.student_id then leOptStrAsc a.term b.term
  else leOptIntAsc a.student_id b.student_id

/-- The rank-1 `ranked_depts` rows the final SELECT's first LEFT JOIN
matches against a `total_credits` row. -/
def rdMatches (t : Tables) (tr : TCRow) : List RDRow :=
  (ranked_depts t).filter (fun r =>
    (r.rn == 1) && sqlEqInt tr.student_id r.student_id && sqlEqStr tr.term r.term)

/-- The `student` rows the final SELECT's second LEFT JOIN matches against a
`total_credits` row. -/
def stuMatches (t : Tables) (tr : TCRow) : List StudentRow :=
  t.student.filter (fun s => sqlEqInt tr.student_id s.emplid)

/-- The report rows one `total_credits` row contributes: the two LEFT JOINs
each yield their matches, or a single all-NULL extension when unmatched. -/
def reportRowsFor (t : Tables) (tr : TCRow) : List ReportRow :=
  let deptFields : List (Option String × Option String) :=
    match rdMatches t tr with
    | [] => [(none, none)]
    | ms => ms.map (fun r => (r.dept_name, r.dept_contact))
  let nameFields : List (Option String) :=
    match stuMatches t tr with
    | [] => [none]
    | ms => ms.map (fun s => s.last_name)
  deptFields.flatMap (fun df => nameFields.map (fun nf =>
    { student_id := tr.student_id, last_name := nf, term := tr.term,
      total_credits := tr.total_credits,
      focused_department_name := df.1,
      focused_department_contact := df.2 }))

/-- The final SELECT: `total_credits` LEFT JOIN `ranked_depts` (rank 1 only)
on (student, term), LEFT JOIN `student` on EMPLID, ordered by
(student_id, term). -/
def final_select (t : Tables) : List ReportRow :=
  sortStable reportLE ((total_credits t.enrollments).flatMap (reportRowsFor t))

/-- The data path of `run` from loaded tables to the report: validate; if
issues were found, clean once and re-validate; abort (no report) when issues
remain.  `apply_database_constraints` rebuilds each table with identical row
content and its failure is non-fatal, so it does not affect the report rows
and is not modelled as a table transformation. -/
def runPipeline (sch : EnrSchema) (t : Tables) : Option (List ReportRow) :=
  let v1 := validate_data_quality sch t
  if v1.1 then some (final_select t)
  else
    let t2 := clean_data_quality_issues sch t v1.2
    let v2 := validate_data_quality sch t2
    if v2.1 then some (final_select t2) else none

/-! ### Generic lemmas about the SQL primitives -/

theorem mem_firstKeys {κ : Type} [DecidableEq κ] {k : κ} :
    ∀ {l : List κ}, k ∈ firstKeys l ↔ k ∈ l
  | [] => by simp [firstKeys]
  | a :: l => by
    simp only [firstKeys, List.mem_cons, List.mem_filter, decide_eq_true_eq]
    constructor
    · rintro (rfl | ⟨h, _⟩)
      · exact Or.inl rfl
      · exact Or.inr (mem_firstKeys.mp h)
    · rintro (rfl | h)
      · exact Or.inl rfl
      · by_cases hk : k = a
        · exact Or.inl hk
        · exact Or.inr ⟨mem_firstKeys.mpr h, hk⟩

theorem firstKeys_pairwise {κ : Type} [DecidableEq κ] :
    ∀ (l : List κ), (firstKeys l).Pairwise (fun a b => a ≠ b)
  | [] => by simp [firstKeys]
  | a :: l => by
    simp only [firstKeys]
    refine List.Pairwise.cons ?_ (List.Pairwise.sublist (List.filter_sublist _) (firstKeys_pairwise l))
    intro b hb
    have hba := (List.mem_filter.mp hb).2
    simp only [decide_eq_true_eq] at hba
    exact fun h => hba h.symm

theorem mem_groupsBy {α κ : Type} [DecidableEq κ] {key : α → κ} {l : List α}
    {g : κ × List α} :
    g ∈ groupsBy key l ↔
      (∃ a ∈ l, key a = g.1) ∧ g.2 = l.filter (fun a => key a = g.1) := by
  simp only [groupsBy, List.mem_map]
  constructor
  · rintro ⟨k, hk, rfl⟩
    have hk2 := mem_firstKeys.mp hk
    rw [List.mem_map] at hk2
    exact ⟨hk2, rfl⟩
  · rintro ⟨h1, h2⟩
    refine ⟨g.1, mem_firstKeys.mpr (List.mem_map.mpr h1), by rw [← h2]⟩

theorem groupsBy_keys_pairwise {α κ : Type} [DecidableEq κ] (key : α → κ)
    (l : List α) :
    (groupsBy key l).Pairwise (fun g h => g.1 ≠ h.1) := by
  unfold groupsBy
  rw [List.pairwise_map]
  exact firstKeys_pairwise _

theorem mem_of_mem_group {α κ : Type} [DecidableEq κ] {key : α → κ} {l : List α}
    {g : κ × List α} (hg : g ∈ groupsBy key l) {a : α} (ha : a ∈ g.2) :
    a ∈ l ∧ key a = g.1 := by
  have h2 := (mem_groupsBy.mp hg).2
  rw [h2] at ha
  have := List.mem_filter.mp ha
  simpa using this

theorem exists_group {α κ : Type} [DecidableEq κ] {key : α → κ} {l : List α}
    {a : α} (ha : a ∈ l) :
    ∃ g ∈ groupsBy key l, g.1 = key a ∧ a ∈ g.2 := by
  refine ⟨(key a, l.filter (fun b => key b = key a)), ?_, rfl, ?_⟩
  · exact mem_groupsBy.mpr ⟨⟨a, ha, rfl⟩, rfl⟩
  · simp [List.mem_filter, ha]

theorem group_ne_nil {α κ : Type} [DecidableEq κ] {key : α → κ} {l : List α}
    {g : κ × List α} (hg : g ∈ groupsBy key l) : g.2 ≠ [] := by
  obtain ⟨h1, h2⟩ := mem_groupsBy.mp hg
  obtain ⟨a, ha, hka⟩ := h1
  intro hnil
  have : a ∈ g.2 := by
    rw [h2]
    simp [List.mem_filter, ha, hka]
  rw [hnil] at this
  exact absurd this (List.not_mem_nil a)

theorem mem_semiJoin {α β : Type} {l : List α} {r : List β} {p : α → β → Bool}
    {b : α} :
    b ∈ l.flatMap (fun a => (r.filter (p a)).map (fun _ => a)) ↔
      b ∈ l ∧ ∃ s ∈ r, p b s := by
  simp only [List.mem_flatMap, List.mem_map, List.mem_filter]
  constructor
  · rintro ⟨a, ha, s, ⟨hs, hps⟩, rfl⟩
    exact ⟨ha, s, hs, hps⟩
  · rintro ⟨hb, s, hs, hps⟩
    exact ⟨b, hb, s, ⟨hs, hps⟩, rfl⟩

theorem rnf_filter_spec {α κ : Type} [DecidableEq κ] (key : α → κ) :
    ∀ (l seen : List α),
      (∀ p ∈ (rowNumbersFrom key seen l).filter (fun p => p.2 == 1),
         p.2 = 1 ∧ p.1 ∈ l ∧ ∀ s ∈ seen, key s ≠ key p.1)
      ∧ ((rowNumbersFrom key seen l).filter (fun p => p.2 == 1)).Pairwise
          (fun p q => key p.1 ≠ key q.1)
      ∧ (∀ a ∈ l, (∀ s ∈ seen, key s ≠ key a) →
          ∃ p ∈ (rowNumbersFrom key seen l).filter (fun p => p.2 == 1),
            key p.1 = key a)
  | [], seen => by simp [rowNumbersFrom]
  | a :: l, seen => by
    obtain ⟨IH1, IH2, IH3⟩ := rnf_filter_spec key l (seen ++ [a])
    have hseencnt : (seen.filter (fun b => key b = key a)).length = 0 ↔
        ∀ s ∈ seen, key s ≠ key a := by
      rw [List.length_eq_zero, List.filter_eq_nil_iff]
      simp
    by_cases hc : (seen.filter (fun b => key b = key a)).length = 0
    · -- first occurrence of this key: the head row gets rn = 1 and is kept
      have hrw : (rowNumbersFrom key seen (a :: l)).filter (fun p => p.2 == 1) =
          (a, 1) :: (rowNumbersFrom key (seen ++ [a]) l).filter (fun p => p.2 == 1) := by
        simp [rowNumbersFrom, hc, List.filter_cons]
      refine ⟨?_, ?_, ?_⟩
      · intro p hp
        rw [hrw] at hp
        rcases List.mem_cons.mp hp with rfl | hp
        · exact ⟨rfl, List.mem_cons_self _ _, hseencnt.mp hc⟩
        · obtain ⟨h1, h2, h3⟩ := IH1 p hp
          exact ⟨h1, List.mem_cons_of_mem _ h2,
            fun s hs => h3 s (List.mem_append_left _ hs)⟩
      · rw [hrw]
        refine List.Pairwise.cons ?_ IH2
        intro q hq
        have h3 := (IH1 q hq).2.2
        exact h3 a (List.mem_append_right _ (List.mem_singleton.mpr rfl))
      · intro b hb hbseen
        rcases List.mem_cons.mp hb with rfl | hb
        · exact ⟨(b, 1), by rw [hrw]; exact List.mem_cons_self _ _, rfl⟩
        · by_cases hkey : key a = key b
          · exact ⟨(a, 1), by rw [hrw]; exact List.mem_cons_self _ _, hkey⟩
          · obtain ⟨p, hp, hkp⟩ := IH3 b hb (by
              intro s hs
              rcases List.mem_append.mp hs with hs | hs
              · exact hbseen s hs
              · rw [List.mem_singleton.mp hs]; exact hkey)
            exact ⟨p, by rw [hrw]; exact List.mem_cons_of_mem _ hp, hkp⟩
    · -- the key was already seen: the head row gets rn > 1 and is dropped
      have hrw : (rowNumbersFrom key seen (a :: l)).filter (fun p => p.2 == 1) =
          (rowNumbersFrom key (seen ++ [a]) l).filter (fun p => p.2 == 1) := by
        have : ((seen.filter (fun b => key b = key a)).length + 1 == 1) = false := by
          rw [beq_eq_false_iff_ne]
          omega
        simp [rowNumbersFrom, List.filter_cons, this]
      refine ⟨?_, by rw [hrw]; exact IH2, ?_⟩
      · intro p hp
        rw [hrw] at hp
        obtain ⟨h1, h2, h3⟩ := IH1 p hp
        exact ⟨h1, List.mem_cons_of_mem _ h2,
          fun s hs => h3 s (List.mem_append_left _ hs)⟩
      · intro b hb hbseen
        have hkey : key a ≠ key b := by
          intro h
          obtain ⟨s, hs, hks⟩ := by
            have : ¬ ∀ s ∈ seen, key s ≠ key a := fun hall => hc (hseencnt.mpr hall)
            push_neg at this
            exact this
          exact hbseen s hs (by rw [hks, h])
        rcases List.mem_cons.mp hb with rfl | hb
        · exact absurd rfl hkey
        · obtain ⟨p, hp, hkp⟩ := IH3 b hb (by
            intro s hs
            rcases List.mem_append.mp hs with hs | hs
            · exact hbseen s hs
            · rw [List.mem_singleton.mp hs]; exact hkey)
          exact ⟨p, by rw [hrw]; exact hp, hkp⟩

theorem dedupKeepFirst_shape {α κ : Type} [DecidableEq κ] {key : α → κ}
    {setRn : α → Nat → α} {l : List α} {b : α}
    (hb : b ∈ dedupKeepFirst key setRn l) : ∃ a ∈ l, b = setRn a 1 := by
  unfold dedupKeepFirst at hb
  obtain ⟨p, hp, rfl⟩ := List.mem_map.mp hb
  obtain ⟨h1, h2, _⟩ := (rnf_filter_spec key l []).1 p hp
  exact ⟨p.1, h2, by rw [h1]⟩

theorem dedupKeepFirst_pairwise {α κ : Type} [DecidableEq κ] {key : α → κ}
    {setRn : α → Nat → α} (hk : ∀ a n, key (setRn a n) = key a) (l : List α) :
    (dedupKeepFirst key setRn l).Pairwise (fun x y => key x ≠ key y) := by
  unfold dedupKeepFirst
  rw [List.pairwise_map]
  refine ((rnf_filter_spec key l []).2.1).imp ?_
  intro p q h
  rw [hk, hk]
  exact h

theorem dedupKeepFirst_pairwise_ne {α : Type} [DecidableEq α]
    {setRn : α → Nat → α} {l : List α}
    (hinj : ∀ a b, a ∈ l → b ∈ l → setRn a 1 = setRn b 1 → a = b) :
    (dedupKeepFirst (fun a => a) setRn l).Pairwise (fun x y => x ≠ y) := by
  unfold dedupKeepFirst
  rw [List.pairwise_map]
  have h2 := (rnf_filter_spec (fun a => a) l []).2.1
  have h1 := (rnf_filter_spec (fun a => a) l []).1
  refine List.Pairwise.imp_of_mem ?_ h2
  intro p q hp hq hne heq
  have hm1 := (h1 p hp).2.1
  have hm2 := (h1 q hq).2.1
  have e1 := (h1 p hp).1
  have e2 := (h1 q hq).1
  exact hne (hinj p.1 q.1 hm1 hm2 (by rw [e1, e2] at heq; exact heq))

theorem dedupKeepFirst_surj {α κ : Type} [DecidableEq κ] {key : α → κ}
    {setRn : α → Nat → α} (hk : ∀ a n, key (setRn a n) = key a) {l : List α}
    {a : α} (ha : a ∈ l) :
    ∃ b ∈ dedupKeepFirst key setRn l, key b = key a := by
  obtain ⟨p, hp, hkp⟩ := (rnf_filter_spec key l []).2.2 a ha (by simp)
  refine ⟨setRn p.1 p.2, List.mem_map_of_mem _ hp, ?_⟩
  rw [hk]
  exact hkp

theorem filter_length_le_one_of_pairwise {α : Type} {p : α → Bool} :
    ∀ {l : List α}, l.Pairwise (fun a b => ¬(p a = true ∧ p b = true)) →
      (l.filter p).length ≤ 1
  | [], _ => by simp
  | a :: l, h => by
    rw [List.pairwise_cons] at h
    by_cases hpa : p a
    · have : l.filter p = [] := by
        rw [List.filter_eq_nil_iff]
        intro b hb hpb
        exact h.1 b hb ⟨hpa, hpb⟩
      simp [List.filter_cons, hpa, this]
    · simp only [List.filter_cons, hpa]
      exact filter_length_le_one_of_pairwise h.2

theorem mem_withRn {r : RDRow} : ∀ {n : Nat} {l : List RDBase},
    r ∈ withRn n l → ∃ a ∈ l, r = toRDRow a r.rn ∧ n ≤ r.rn := by
  intro n l
  induction l generalizing n with
  | nil => simp [withRn]
  | cons a l ih =>
    intro h
    rcases List.mem_cons.mp h with rfl | h
    · exact ⟨a, List.mem_cons_self _ _, rfl, Nat.le_refl _⟩
    · obtain ⟨b, hb, hr, hn⟩ := ih h
      exact ⟨b, List.mem_cons_of_mem _ hb, hr, Nat.le_of_succ_le hn⟩

theorem withRn_rn_one {r : RDRow} {l : List RDBase}
    (hr : r ∈ withRn 1 l) (h1 : r.rn = 1) :
    ∃ a tl, l = a :: tl ∧ r = toRDRow a 1 := by
  match l with
  | [] => simp [withRn] at hr
  | a :: tl =>
    rcases List.mem_cons.mp hr with rfl | hr
    · exact ⟨a, tl, rfl, by rw [← h1]⟩
    · obtain ⟨b, _, _, hn⟩ := mem_withRn hr
      omega

theorem withRn_pairwise_rn : ∀ (n : Nat) (l : List RDBase),
    (withRn n l).Pairwise (fun r q => r.rn ≠ q.rn)
  | _, [] => by simp [withRn]
  | n, a :: l => by
    simp only [withRn]
    refine List.Pairwise.cons ?_ (withRn_pairwise_rn (n + 1) l)
    intro q hq
    obtain ⟨b, _, _, hn⟩ := mem_withRn hq
    simp only [toRDRow]
    omega

/-! ### Properties of the ORDER BY comparators -/

theorem char_eq_iff_val {a b : Char} : a = b ↔ a.val.toNat = b.val.toNat := by
  constructor
  · rintro rfl
    rfl
  · intro h
    exact Char.ext (UInt32.ext h)

theorem strLeChars_refl : ∀ (l : List Char), strLeChars l l = true
  | [] => rfl
  | a :: l => by simp [strLeChars, strLeChars_refl l]

theorem strLeChars_trans : ∀ {x y z : List Char},
    strLeChars x y = true → strLeChars y z = true → strLeChars x z = true
  | [], _, _, _, _ => rfl
  | a :: as, [], _, h1, _ => by simp [strLeChars] at h1
  | a :: as, b :: bs, [], _, h2 => by simp [strLeChars] at h2
  | a :: as, b :: bs, c :: cs, h1, h2 => by
    simp only [strLeChars] at *
    by_cases hab : a = b <;> by_cases hbc : b = c
    · subst hab; subst hbc
      simp only [if_pos rfl] at *
      exact strLeChars_trans h1 h2
    · subst hab
      rw [if_pos rfl] at h1
      rw [if_neg hbc] at h2 ⊢
      exact h2
    · subst hbc
      rw [if_neg hab] at h1 ⊢
      exact h1
    · rw [if_neg hab] at h1
      rw [if_neg hbc] at h2
      have hac : a.val.toNat < c.val.toNat := by
        simp only [charLT, decide_eq_true_eq] at h1 h2
        omega
      have hne : a ≠ c := fun h => absurd (char_eq_iff_val.mp h) (by omega)
      rw [if_neg hne]
      simp [charLT]
      omega

theorem strLeChars_total : ∀ (x y : List Char),
    strLeChars x y = true ∨ strLeChars y x = true
  | [], _ => Or.inl rfl
  | _ :: _, [] => Or.inr rfl
  | a :: as, b :: bs => by
    simp only [strLeChars]
    by_cases hab : a = b
    · subst hab
      rw [if_pos rfl, if_pos rfl]
      exact strLeChars_total as bs
    · rw [if_neg hab, if_neg (fun h => hab h.symm)]
      have : a.val.toNat ≠ b.val.toNat := fun h => hab (char_eq_iff_val.mpr h)
      simp only [charLT, decide_eq_true_eq]
      omega

theorem leOptStrAsc_refl (a : Option String) : leOptStrAsc a a := by
  cases a <;> simp [leOptStrAsc, strLE, strLeChars_refl]

theorem leOptStrAsc_trans {a b c : Option String}
    (h1 : leOptStrAsc a b) (h2 : leOptStrAsc b c) : leOptStrAsc a c := by
  cases a <;> cases b <;> cases c <;>
    simp_all [leOptStrAsc, strLE] <;> exact strLeChars_trans h1 h2

theorem leOptStrAsc_total (a b : Option String) :
    leOptStrAsc a b || leOptStrAsc b a := by
  cases a <;> cases b <;> simp [leOptStrAsc, strLE] <;>
    exact strLeChars_total _ _

theorem leOptIntAsc_trans {a b c : Option Int}
    (h1 : leOptIntAsc a b) (h2 : leOptIntAsc b c) : leOptIntAsc a c := by
  cases a <;> cases b <;> cases c <;>
    simp_all [leOptIntAsc] <;> omega

theorem leOptIntAsc_total (a b : Option Int) :
    leOptIntAsc a b || leOptIntAsc b a := by
  cases a <;> cases b <;> simp [leOptIntAsc] <;> omega

theorem leOptIntDesc_trans {a b c : Option Int}
    (h1 : leOptIntDesc a b) (h2 : leOptIntDesc b c) : leOptIntDesc a c := by
  cases a <;> cases b <;> cases c <;>
    simp_all [leOptIntDesc] <;> omega

theorem leOptIntDesc_total (a b : Option Int) :
    leOptIntDesc a b || leOptIntDesc b a := by
  cases a <;> cases b <;> simp [leOptIntDesc] <;> omega

theorem leOptIntDesc_strict {a b c : Option Int} (hab : a ≠ b) (hbc : b ≠ c)
    (h1 : leOptIntDesc a b) (h2 : leOptIntDesc b c) :
    a ≠ c ∧ leOptIntDesc a c := by
  cases a <;> cases b <;> cases c <;> simp_all [leOptIntDesc] <;> omega

theorem leOptIntAsc_strict {a b c : Option Int} (hab : a ≠ b) (hbc : b ≠ c)
    (h1 : leOptIntAsc a b) (h2 : leOptIntAsc b c) :
    a ≠ c ∧ leOptIntAsc a c := by
  cases a <;> cases b <;> cases c <;> simp_all [leOptIntAsc] <;> omega

theorem rdLE_trans (a b c : RDBase) (hab : rdLE a b) (hbc : rdLE b c) :
    rdLE a c := by
  unfold rdLE at *
  by_cases h1 : a.dept_credits = b.dept_credits <;>
    by_cases h2 : b.dept_credits = c.dept_credits
  · rw [if_pos h1] at hab
    rw [if_pos h2] at hbc
    rw [if_pos (h1.trans h2)]
    exact leOptStrAsc_trans hab hbc
  · rw [if_pos h1] at hab
    rw [if_neg h2] at hbc
    rw [if_neg (h1 ▸ h2), h1]
    exact hbc
  · rw [if_neg h1] at hab
    rw [if_pos h2] at hbc
    rw [if_neg (h2 ▸ h1), ← h2]
    exact hab
  · rw [if_neg h1] at hab
    rw [if_neg h2] at hbc
    obtain ⟨hne, hle⟩ := leOptIntDesc_strict h1 h2 hab hbc
    rw [if_neg hne]
    exact hle

theorem rdLE_total (a b : RDBase) : rdLE a b || rdLE b a := by
  unfold rdLE
  by_cases h : a.dept_credits = b.dept_credits
  · rw [if_pos h, if_pos h.symm]
    exact leOptStrAsc_total _ _
  · rw [if_neg h, if_neg (fun hs => h hs.symm)]
    exact leOptIntDesc_total _ _

theorem reportLE_trans (a b c : ReportRow) (hab : reportLE a b)
    (hbc : reportLE b c) : reportLE a c := by
  unfold reportLE at *
  by_cases h1 : a.student_id = b.student_id <;>
    by_cases h2 : b.student_id = c.student_id
  · rw [if_pos h1] at hab
    rw [if_pos h2] at hbc
    rw [if_pos (h1.trans h2)]
    exact leOptStrAsc_trans hab hbc
  · rw [if_pos h1] at hab
    rw [if_neg h2] at hbc
    rw [if_neg (h1 ▸ h2), h1]
    exact hbc
  · rw [if_neg h1] at hab
    rw [if_pos h2] at hbc
    rw [if_neg (h2 ▸ h1), ← h2]
    exact hab
  · rw [if_neg h1] at hab
    rw [if_neg h2] at hbc
    obtain ⟨hne, hle⟩ := leOptIntAsc_strict h1 h2 hab hbc
    rw [if_neg hne]
    exact hle

theorem reportLE_total (a b : ReportRow) : reportLE a b || reportLE b a := by
  unfold reportLE
  by_cases h : a.student_id = b.student_id
  · rw [if_pos h, if_pos h.symm]
    exact leOptStrAsc_total _ _
  · rw [if_neg h, if_neg (fun hs => h hs.symm)]
    exact leOptIntAsc_total _ _

/-! ### Frame lemmas: which tables each cleaning step leaves unchanged -/

theorem cleanStep1_frame (iss : Issues) (t : Tables) :
    (cleanStep1 iss t).acad_prog = t.acad_prog ∧
    (cleanStep1 iss t).departments = t.departments ∧
    (cleanStep1 iss t).enrollments = t.enrollments := by
  unfold cleanStep1
  split <;> exact ⟨rfl, rfl, rfl⟩

theorem cleanStep2_frame (iss : Issues) (t : Tables) :
    (cleanStep2 iss t).student = t.student ∧
    (cleanStep2 iss t).departments = t.departments ∧
    (cleanStep2 iss t).enrollments = t.enrollments := by
  unfold cleanStep2
  split <;> exact ⟨rfl, rfl, rfl⟩

theorem cleanStep3_frame (iss : Issues) (t : Tables) :
    (cleanStep3 iss t).student = t.student ∧
    (cleanStep3 iss t).acad_prog = t.acad_prog ∧
    (cleanStep3 iss t).enrollments = t.enrollments := by
  unfold cleanStep3
  split <;> exact ⟨rfl, rfl, rfl⟩

theorem cleanStep4_frame (sch : EnrSchema) (iss : Issues) (t : Tables) :
    (cleanStep4 sch iss t).student = t.student ∧
    (cleanStep4 sch iss t).acad_prog = t.acad_prog ∧
    (cleanStep4 sch iss t).departments = t.departments := by
  unfold cleanStep4
  split <;> exact ⟨rfl, rfl, rfl⟩

theorem cleanStep5_frame (iss : Issues) (t : Tables) :
    (cleanStep5 iss t).student = t.student ∧
    (cleanStep5 iss t).departments = t.departments ∧
    (cleanStep5 iss t).enrollments = t.enrollments := by
  unfold cleanStep5
  split <;> exact ⟨rfl, rfl, rfl⟩

theorem cleanStep6_frame (iss : Issues) (t : Tables) :
    (cleanStep6 iss t).student = t.student ∧
    (cleanStep6 iss t).acad_prog = t.acad_prog ∧
    (cleanStep6 iss t).departments = t.departments := by
  unfold cleanStep6
  split <;> exact ⟨rfl, rfl, rfl⟩

theorem cleanStep7_frame (iss : Issues) (t : Tables) :
    (cleanStep7 iss t).student = t.student ∧
    (cleanStep7 iss t).acad_prog = t.acad_prog ∧
    (cleanStep7 iss t).departments = t.departments := by
  unfold cleanStep7
  split <;> exact ⟨rfl, rfl, rfl⟩

theorem cleanStep8a_frame (iss : Issues) (t : Tables) :
    (cleanStep8a iss t).acad_prog = t.acad_prog ∧
    (cleanStep8a iss t).departments = t.departments ∧
    (cleanStep8a iss t).enrollments = t.enrollments := by
  unfold cleanStep8a
  split <;> exact ⟨rfl, rfl, rfl⟩

theorem cleanStep8b_frame (iss : Issues) (t : Tables) :
    (cleanStep8b iss t).acad_prog = t.acad_prog ∧
    (cleanStep8b iss t).departments = t.departments ∧
    (cleanStep8b iss t).enrollments = t.enrollments := by
  unfold cleanStep8b
  split <;> exact ⟨rfl, rfl, rfl⟩

theorem cleanStep8c_frame (iss : Issues) (t : Tables) :
    (cleanStep8c iss t).student = t.student ∧
    (cleanStep8c iss t).acad_prog = t.acad_prog ∧
    (cleanStep8c iss t).departments = t.departments := by
  unfold cleanStep8c
  split <;> exact ⟨rfl, rfl, rfl⟩

theorem cleanStep8d_frame (iss : Issues) (t : Tables) :
    (cleanStep8d iss t).student = t.student ∧
    (cleanStep8d iss t).acad_prog = t.acad_prog ∧
    (cleanStep8d iss t).departments = t.departments := by
  unfold cleanStep8d
  split <;> exact ⟨rfl, rfl, rfl⟩

theorem cleanStep8e_frame (iss : Issues) (t : Tables) :
    (cleanStep8e iss t).student = t.student ∧
    (cleanStep8e iss t).acad_prog = t.acad_prog ∧
    (cleanStep8e iss t).departments = t.departments := by
  unfold cleanStep8e
  split <;> exact ⟨rfl, rfl, rfl⟩

theorem cleanStep8f_frame (iss : Issues) (t : Tables) :
    (cleanStep8f iss t).student = t.student ∧
    (cleanStep8f iss t).acad_prog = t.acad_prog ∧
    (cleanStep8f iss t).enrollments = t.enrollments := by
  unfold cleanStep8f
  split <;> exact ⟨rfl, rfl, rfl⟩

theorem cleanStep9_frame (iss : Issues) (t : Tables) :
    (cleanStep9 iss t).student = t.student ∧
    (cleanStep9 iss t).acad_prog = t.acad_prog ∧
    (cleanStep9 iss t).departments = t.departments := by
  unfold cleanStep9
  split <;> exact ⟨rfl, rfl, rfl⟩

theorem cleanStep10_frame (iss : Issues) (t : Tables) :
    (cleanStep10 iss t).acad_prog = t.acad_prog ∧
    (cleanStep10 iss t).departments = t.departments ∧
    (cleanStep10 iss t).enrollments = t.enrollments := by
  unfold cleanStep10
  split <;> exact ⟨rfl, rfl, rfl⟩

/-! ### Issue-flag lemmas -/

theorem hasError_true_anyFlag {i : Issues} (h : i.hasError = true) :
    i.anyFlag = true := by
  simp only [Issues.hasError, Bool.or_eq_true] at h
  simp only [Issues.anyFlag, Bool.or_eq_true]
  tauto

theorem anyFlag_false_hasError {i : Issues} (h : i.anyFlag = false) :
    i.hasError = false := by
  simp only [Issues.anyFlag, Bool.or_eq_false_iff] at h
  simp only [Issues.hasError, Bool.or_eq_false_iff]
  tauto

theorem clean_of_no_flags (sch : EnrSchema) (t : Tables) {iss : Issues}
    (h : iss.anyFlag = false) : clean_data_quality_issues sch t iss = t := by
  obtain ⟨f1, f2, f3, f4, f5, f6, f7, f8, f9, f10, f11, f12, f13, f14, f15, f16⟩ := iss
  simp only [Issues.anyFlag, Bool.or_eq_false_iff] at h
  unfold clean_data_quality_issues repairEmptyNames repairClamp repairNulls
    repairOrphans repairDuplicates cleanStep10 cleanStep9 cleanStep8
    cleanStep8f cleanStep8e cleanStep8d cleanStep8c cleanStep8b cleanStep8a
    cleanStep7 cleanStep6 cleanStep5 cleanStep4 cleanStep3 cleanStep2 cleanStep1
  simp_all

/-! ### Stable-sort lemmas -/

theorem insertStable_perm {α : Type} (le : α → α → Bool) (a : α) :
    ∀ (l : List α), (insertStable le a l).Perm (a :: l)
  | [] => List.Perm.refl _
  | b :: l => by
    unfold insertStable
    split
    · exact (List.Perm.cons b (insertStable_perm le a l)).trans (List.Perm.swap a b l)
    · exact List.Perm.refl _

theorem sortStable_perm {α : Type} (le : α → α → Bool) :
    ∀ (l : List α), (sortStable le l).Perm l
  | [] => List.Perm.refl _
  | a :: l =>
    (insertStable_perm le a (sortStable le l)).trans
      (List.Perm.cons a (sortStable_perm le l))

theorem mem_sortStable {α : Type} {le : α → α → Bool} {l : List α} {a : α} :
    a ∈ sortStable le l ↔ a ∈ l :=
  (sortStable_perm le l).mem_iff

theorem insertStable_pairwise {α : Type} {le : α → α → Bool}
    (htr : ∀ x y z, le x y → le y z → le x z)
    (hto : ∀ x y, le x y || le y x) (a : α) :
    ∀ {l : List α}, l.Pairwise (fun x y => le x y = true) →
      (insertStable le a l).Pairwise (fun x y => le x y = true)
  | [], _ => by simp [insertStable]
  | b :: l, h => by
    rw [List.pairwise_cons] at h
    unfold insertStable
    by_cases hba : le b a
    · rw [if_pos hba, List.pairwise_cons]
      refine ⟨?_, insertStable_pairwise htr hto a h.2⟩
      intro x hx
      rcases List.mem_cons.mp ((insertStable_perm le a l).mem_iff.mp hx) with rfl | hxl
      · exact hba
      · exact h.1 x hxl
    · rw [if_neg hba, List.pairwise_cons]
      have hab : le a b := by
        have := hto a b
        rw [Bool.eq_false_iff.mpr hba, Bool.or_false] at this
        exact this
      refine ⟨?_, List.Pairwise.cons h.1 h.2⟩
      intro x hx
      rcases List.mem_cons.mp hx with rfl | hxl
      · exact hab
      · exact htr a b x hab (h.1 x hxl)

theorem sortStable_pairwise {α : Type} {le : α → α → Bool}
    (htr : ∀ x y z, le x y → le y z → le x z)
    (hto : ∀ x y, le x y || le y x) :
    ∀ (l : List α), (sortStable le l).Pairwise (fun x y => le x y = true)
  | [] => List.Pairwise.nil
  | a :: l => insertStable_pairwise htr hto a (sortStable_pairwise htr hto l)

/-! ### Origin lemmas for the aggregation views -/

theorem cbdJoinDepts_contact {cbd : List CBDRow} {deps : List DepartmentRow}
    {a : RDBase} (ha : a ∈ cbdJoinDepts cbd deps) :
    a.dept_contact = none ∨ ∃ d ∈ deps, a.dept_contact = d.contact_person := by
  unfold cbdJoinDepts at ha
  obtain ⟨c, hc, ha⟩ := List.mem_flatMap.mp ha
  rcases hms : deps.filter (fun d => sqlEqStr c.dept_code d.dept_code) with _ | ⟨d, ds⟩
  · rw [hms] at ha
    simp only [List.mem_singleton] at ha
    left
    rw [ha]
  · rw [hms] at ha
    obtain ⟨d2, hd2, rfl⟩ := List.mem_map.mp ha
    right
    have hd2m : d2 ∈ deps.filter (fun d => sqlEqStr c.dept_code d.dept_code) := by
      rw [hms]
      exact hd2
    exact ⟨d2, (List.mem_filter.mp hd2m).1, rfl⟩

theorem ranked_origin {t : Tables} {r : RDRow} (hr : r ∈ ranked_depts t) :
    ∃ a ∈ cbdJoinDepts (credits_by_dept t.enrollments) t.departments,
      r = toRDRow a r.rn := by
  unfold ranked_depts at hr
  obtain ⟨g, hg, hr⟩ := List.mem_flatMap.mp hr
  obtain ⟨a, ha, hra, _⟩ := mem_withRn hr
  have hag : a ∈ g.2 := mem_sortStable.mp ha
  unfold rankedGroups at hg
  exact ⟨a, (mem_of_mem_group hg hag).1, hra⟩

theorem mem_reportRowsFor {t : Tables} {tr : TCRow} {r : ReportRow}
    (hr : r ∈ reportRowsFor t tr) :
    r.student_id = tr.student_id ∧ r.term = tr.term ∧
    r.total_credits = tr.total_credits ∧
    ((rdMatches t tr = [] ∧ r.focused_department_name = none ∧
        r.focused_department_contact = none) ∨
      ∃ rd ∈ rdMatches t tr, r.focused_department_name = rd.dept_name ∧
        r.focused_department_contact = rd.dept_contact) ∧
    ((stuMatches t tr = [] ∧ r.last_name = none) ∨
      ∃ s ∈ stuMatches t tr, r.last_name = s.last_name) := by
  simp only [reportRowsFor] at hr
  rcases hms : rdMatches t tr with _ | ⟨m, ms⟩ <;>
    rcases hsm : stuMatches t tr with _ | ⟨s0, ss⟩ <;>
    rw [hms, hsm] at hr <;>
    obtain ⟨df, hdf, hr⟩ := List.mem_flatMap.mp hr <;>
    obtain ⟨nf, hnf, rfl⟩ := List.mem_map.mp hr
  · simp only [List.mem_singleton] at hdf hnf
    subst hdf; subst hnf
    exact ⟨rfl, rfl, rfl, Or.inl ⟨rfl, rfl, rfl⟩, Or.inl ⟨rfl, rfl⟩⟩
  · simp only [List.mem_singleton] at hdf
    subst hdf
    obtain ⟨s1, hs1, rfl⟩ := List.mem_map.mp hnf
    exact ⟨rfl, rfl, rfl, Or.inl ⟨rfl, rfl, rfl⟩,
      Or.inr ⟨s1, hsm ▸ hs1, rfl⟩⟩
  · simp only [List.mem_singleton] at hnf
    subst hnf
    obtain ⟨rd, hrd, rfl⟩ := List.mem_map.mp hdf
    exact ⟨rfl, rfl, rfl, Or.inr ⟨rd, hms ▸ hrd, rfl, rfl⟩, Or.inl ⟨rfl, rfl⟩⟩
  · obtain ⟨rd, hrd, rfl⟩ := List.mem_map.mp hdf
    obtain ⟨s1, hs1, rfl⟩ := List.mem_map.mp hnf
    exact ⟨rfl, rfl, rfl, Or.inr ⟨rd, hms ▸ hrd, rfl, rfl⟩,
      Or.inr ⟨s1, hsm ▸ hs1, rfl⟩⟩

theorem mem_final_select {t : Tables} {r : ReportRow} (hr : r ∈ final_select t) :
    ∃ tr ∈ total_credits t.enrollments, r ∈ reportRowsFor t tr := by
  unfold final_select at hr
  exact List.mem_flatMap.mp (mem_sortStable.mp hr)

/-! ### Enrollment-row origins through the cleaning pass -/

/-- The cleaning pass up to and including step 8 (everything before the
credit-hour clamp). -/
def cleanTo8 (sch : EnrSchema) (iss : Issues) (t : Tables) : Tables :=
  cleanStep8 iss (cleanStep7 iss (cleanStep6 iss (cleanStep5 iss
    (cleanStep4 sch iss (cleanStep3 iss (cleanStep2 iss (cleanStep1 iss t)))))))

theorem clean_eq_steps (sch : EnrSchema) (iss : Issues) (t : Tables) :
    clean_data_quality_issues sch t iss =
      cleanStep10 iss (cleanStep9 iss (cleanTo8 sch iss t)) := rfl

theorem cleanStep4_enr_origin {sch : EnrSchema} {iss : Issues} {u : Tables}
    {e : EnrollmentRow} (he : e ∈ (cleanStep4 sch iss u).enrollments) :
    e ∈ u.enrollments ∨ ∃ e0 ∈ u.enrollments, e = setRnEnr e0 1 := by
  unfold cleanStep4 at he
  split at he
  · exact Or.inr (dedupKeepFirst_shape he)
  · exact Or.inl he

theorem cleanStep6_enr_sub {iss : Issues} {u : Tables} {e : EnrollmentRow}
    (he : e ∈ (cleanStep6 iss u).enrollments) : e ∈ u.enrollments := by
  unfold cleanStep6 at he
  split at he
  · exact (mem_semiJoin.mp he).1
  · exact he

theorem cleanStep7_enr_sub {iss : Issues} {u : Tables} {e : EnrollmentRow}
    (he : e ∈ (cleanStep7 iss u).enrollments) : e ∈ u.enrollments := by
  unfold cleanStep7 at he
  split at he
  · exact (mem_semiJoin.mp he).1
  · exact he

theorem cleanStep8c_enr_sub {iss : Issues} {u : Tables} {e : EnrollmentRow}
    (he : e ∈ (cleanStep8c iss u).enrollments) : e ∈ u.enrollments := by
  unfold cleanStep8c at he
  split at he
  · exact (List.mem_filter.mp he).1
  · exact he

theorem cleanStep8d_enr_sub {iss : Issues} {u : Tables} {e : EnrollmentRow}
    (he : e ∈ (cleanStep8d iss u).enrollments) : e ∈ u.enrollments := by
  unfold cleanStep8d at he
  split at he
  · exact (List.mem_filter.mp he).1
  · exact he

theorem cleanStep8e_enr_sub {iss : Issues} {u : Tables} {e : EnrollmentRow}
    (he : e ∈ (cleanStep8e iss u).enrollments) : e ∈ u.enrollments := by
  unfold cleanStep8e at he
  split at he
  · exact (List.mem_filter.mp he).1
  · exact he

theorem cleanTo8_enr_origin (sch : EnrSchema) (iss : Issues) (t : Tables) :
    ∀ e ∈ (cleanTo8 sch iss t).enrollments,
      ∃ e0 ∈ t.enrollments, e = e0 ∨ e = setRnEnr e0 1 := by
  intro e he
  unfold cleanTo8 cleanStep8 at he
  rw [(cleanStep8f_frame _ _).2.2] at he
  have he := cleanStep8c_enr_sub (cleanStep8d_enr_sub (cleanStep8e_enr_sub he))
  rw [(cleanStep8b_frame _ _).2.2, (cleanStep8a_frame _ _).2.2] at he
  have he := cleanStep6_enr_sub (cleanStep7_enr_sub he)
  rw [(cleanStep5_frame _ _).2.2] at he
  rcases cleanStep4_enr_origin he with he | ⟨e0, he0, rfl⟩
  · rw [(cleanStep3_frame _ _).2.2, (cleanStep2_frame _ _).2.2,
      (cleanStep1_frame _ _).2.2] at he
    exact ⟨e, he, Or.inl rfl⟩
  · rw [(cleanStep3_frame _ _).2.2, (cleanStep2_frame _ _).2.2,
      (cleanStep1_frame _ _).2.2] at he0
    exact ⟨e0, he0, Or.inr rfl⟩

theorem cleanTo8_enr_some (sch : EnrSchema) (t : Tables) :
    ∀ e ∈ (cleanTo8 sch (validate_data_quality sch t).2 t).enrollments,
      e.credit_hours ≠ none := by
  intro e he
  by_cases hflag : (validate_data_quality sch t).2.null_enrollments_credit_hours
  · -- the null repair ran: the last enrollment filter of step 8 removed NULLs
    unfold cleanTo8 cleanStep8 at he
    rw [(cleanStep8f_frame _ _).2.2] at he
    unfold cleanStep8e at he
    rw [if_pos hflag] at he
    have h2 := (List.mem_filter.mp he).2
    intro hnone
    rw [hnone] at h2
    simp at h2
  · -- no NULL was present to begin with, and steps 1-8 never create one
    obtain ⟨e0, he0, hor⟩ := cleanTo8_enr_origin sch _ t e he
    have hall : ∀ x ∈ t.enrollments, ¬ (x.credit_hours.isNone = true) := by
      have heq : (validate_data_quality sch t).2.null_enrollments_credit_hours =
          t.enrollments.any (fun x => x.credit_hours.isNone) := rfl
      rw [heq] at hflag
      exact List.any_eq_false.mp (Bool.eq_false_iff.mpr hflag)
    have h0 := hall e0 he0
    rcases hor with rfl | rfl
    · intro hnone
      exact h0 (by rw [hnone]; rfl)
    · intro hnone
      have h3 : e0.credit_hours = none := hnone
      exact h0 (by rw [h3]; rfl)

/-! ### Key-uniqueness machinery -/

theorem sqlEqInt_true {x y : Option Int} :
    sqlEqInt x y = true ↔ ∃ v, x = some v ∧ y = some v := by
  cases x <;> cases y <;> simp [sqlEqInt]
  exact comm

theorem sqlEqStr_true {x y : Option String} :
    sqlEqStr x y = true ↔ ∃ v, x = some v ∧ y = some v := by
  cases x <;> cases y <;> simp [sqlEqStr]
  exact comm

theorem hasDupBy_false_pairwise {α κ : Type} [DecidableEq κ] {key : α → κ} :
    ∀ {l : List α}, hasDupBy key l = false →
      l.Pairwise (fun a b => key a ≠ key b)
  | [], _ => List.Pairwise.nil
  | a :: l, h => by
    rw [hasDupBy, List.any_eq_false] at h
    refine List.Pairwise.cons ?_ (hasDupBy_false_pairwise ?_)
    · intro b hb hkey
      have ha := h a (List.mem_cons_self a l)
      simp only [decide_eq_true_eq] at ha
      apply ha
      rw [List.filter_cons_of_pos (by simp)]
      have hbmem : b ∈ l.filter (fun x => key x = key a) :=
        List.mem_filter.mpr ⟨hb, by simp [hkey.symm]⟩
      have := List.length_pos.mpr (List.ne_nil_of_mem hbmem)
      simp only [List.length_cons]
      omega
    · rw [hasDupBy, List.any_eq_false]
      intro r hr
      have := h r (List.mem_cons_of_mem a hr)
      simp only [decide_eq_true_eq] at this ⊢
      intro h2
      apply this
      have : (l.filter (fun x => key x = key r)).length ≤
          ((a :: l).filter (fun x => key x = key r)).length := by
        rw [List.filter_cons]
        split <;> simp
      omega

theorem semiJoin_eq_filter {α β : Type} {l : List α} {r : List β}
    {p : α → β → Bool} (h : ∀ a, (r.filter (p a)).length ≤ 1) :
    l.flatMap (fun a => (r.filter (p a)).map (fun _ => a)) =
      l.filter (fun a => !(r.filter (p a)).isEmpty) := by
  induction l with
  | nil => rfl
  | cons a l ih =>
    rw [List.flatMap_cons, List.filter_cons, ih]
    rcases hf : r.filter (p a) with _ | ⟨b, bs⟩
    · simp
    · have hlen := h a
      rw [hf] at hlen
      have hbs : bs = [] := by
        simp only [List.length_cons] at hlen
        exact List.length_eq_zero.mp (by omega)
      subst hbs
      simp

theorem stuMatches_le_one {stu : List StudentRow}
    (h : stu.Pairwise (fun a b => a.emplid ≠ b.emplid)) (x : Option Int) :
    (stu.filter (fun s => sqlEqInt x s.emplid)).length ≤ 1 := by
  refine filter_length_le_one_of_pairwise (h.imp ?_)
  intro a b hne ⟨h1, h2⟩
  obtain ⟨v, hx1, ha⟩ := sqlEqInt_true.mp h1
  obtain ⟨w, hx2, hb⟩ := sqlEqInt_true.mp h2
  rw [hx1] at hx2
  apply hne
  rw [ha, hb, ← Option.some_inj.mp hx2]

theorem deptMatches_le_one {deps : List DepartmentRow}
    (h : deps.Pairwise (fun a b => a.dept_code ≠ b.dept_code)) (x : Option String) :
    (deps.filter (fun d => sqlEqStr x d.dept_code)).length ≤ 1 := by
  refine filter_length_le_one_of_pairwise (h.imp ?_)
  intro a b hne ⟨h1, h2⟩
  obtain ⟨v, hx1, ha⟩ := sqlEqStr_true.mp h1
  obtain ⟨w, hx2, hb⟩ := sqlEqStr_true.mp h2
  rw [hx1] at hx2
  apply hne
  rw [ha, hb, ← Option.some_inj.mp hx2]

/-! ### Post-clean key uniqueness, table by table -/

theorem cleanStep8a_student_sub (iss : Issues) (u : Tables) :
    ((cleanStep8a iss u).student).Sublist u.student := by
  unfold cleanStep8a
  split
  · exact List.filter_sublist _
  · exact List.Sublist.refl _

theorem cleanStep8b_student_sub (iss : Issues) (u : Tables) :
    ((cleanStep8b iss u).student).Sublist u.student := by
  unfold cleanStep8b
  split
  · exact List.filter_sublist _
  · exact List.Sublist.refl _

theorem cleanStep10_student_sub (iss : Issues) (u : Tables) :
    ((cleanStep10 iss u).student).Sublist u.student := by
  unfold cleanStep10
  split
  · exact List.filter_sublist _
  · exact List.Sublist.refl _

theorem cleanStep8c_enr_sublist (iss : Issues) (u : Tables) :
    ((cleanStep8c iss u).enrollments).Sublist u.enrollments := by
  unfold cleanStep8c
  split
  · exact List.filter_sublist _
  · exact List.Sublist.refl _

theorem cleanStep8d_enr_sublist (iss : Issues) (u : Tables) :
    ((cleanStep8d iss u).enrollments).Sublist u.enrollments := by
  unfold cleanStep8d
  split
  · exact List.filter_sublist _
  · exact List.Sublist.refl _

theorem cleanStep8e_enr_sublist (iss : Issues) (u : Tables) :
    ((cleanStep8e iss u).enrollments).Sublist u.enrollments := by
  unfold cleanStep8e
  split
  · exact List.filter_sublist _
  · exact List.Sublist.refl _

theorem cleanStep8f_dept_sub (iss : Issues) (u : Tables) :
    ((cleanStep8f iss u).departments).Sublist u.departments := by
  unfold cleanStep8f
  split
  · exact List.filter_sublist _
  · exact List.Sublist.refl _

theorem cleanStep5_acad_sublist {iss : Issues} {u : Tables}
    (hstu : u.student.Pairwise (fun a b => a.emplid ≠ b.emplid)) :
    ((cleanStep5 iss u).acad_prog).Sublist u.acad_prog := by
  unfold cleanStep5
  split
  · show (innerJoinAcadStudent u.acad_prog u.student).Sublist u.acad_prog
    rw [show innerJoinAcadStudent u.acad_prog u.student =
        u.acad_prog.filter (fun a =>
          !(u.student.filter (fun s => sqlEqInt a.emplid s.emplid)).isEmpty) from
      semiJoin_eq_filter (fun a => stuMatches_le_one hstu a.emplid)]
    exact List.filter_sublist _
  · exact List.Sublist.refl _

theorem cleanStep6_enr_sublist {iss : Issues} {u : Tables}
    (hstu : u.student.Pairwise (fun a b => a.emplid ≠ b.emplid)) :
    ((cleanStep6 iss u).enrollments).Sublist u.enrollments := by
  unfold cleanStep6
  split
  · show (innerJoinEnrStudent u.enrollments u.student).Sublist u.enrollments
    rw [show innerJoinEnrStudent u.enrollments u.student =
        u.enrollments.filter (fun e =>
          !(u.student.filter (fun s => sqlEqInt e.emplid s.emplid)).isEmpty) from
      semiJoin_eq_filter (fun e => stuMatches_le_one hstu e.emplid)]
    exact List.filter_sublist _
  · exact List.Sublist.refl _

theorem cleanStep7_enr_sublist {iss : Issues} {u : Tables}
    (hdep : u.departments.Pairwise (fun a b => a.dept_code ≠ b.dept_code)) :
    ((cleanStep7 iss u).enrollments).Sublist u.enrollments := by
  unfold cleanStep7
  split
  · show (innerJoinEnrDept u.enrollments u.departments).Sublist u.enrollments
    rw [show innerJoinEnrDept u.enrollments u.departments =
        u.enrollments.filter (fun e =>
          !(u.departments.filter (fun d => sqlEqStr e.department d.dept_code)).isEmpty) from
      semiJoin_eq_filter (fun e => deptMatches_le_one hdep e.department)]
    exact List.filter_sublist _
  · exact List.Sublist.refl _

theorem step1_student_pairwise (sch : EnrSchema) (t : Tables) :
    ((cleanStep1 (validate_data_quality sch t).2 t).student).Pairwise
      (fun a b => a.emplid ≠ b.emplid) := by
  unfold cleanStep1
  by_cases h : (validate_data_quality sch t).2.duplicate_students
  · rw [if_pos h]
    show (dedupKeepFirst (fun s : StudentRow => s.emplid) setRnStudent
        t.student).Pairwise (fun a b => a.emplid ≠ b.emplid)
    exact @dedupKeepFirst_pairwise StudentRow (Option Int) _
      (fun s => s.emplid) setRnStudent (fun a n => rfl) t.student
  · rw [if_neg h]
    exact hasDupBy_false_pairwise
      (show hasDupBy (fun s => s.emplid) t.student = false from
        Bool.eq_false_iff.mpr h)

theorem step3_dept_pairwise (sch : EnrSchema) (t : Tables) :
    ((cleanStep3 (validate_data_quality sch t).2 (cleanStep2
      (validate_data_quality sch t).2 (cleanStep1
      (validate_data_quality sch t).2 t))).departments).Pairwise
      (fun a b => a.dept_code ≠ b.dept_code) := by
  have hin : (cleanStep2 (validate_data_quality sch t).2 (cleanStep1
      (validate_data_quality sch t).2 t)).departments = t.departments := by
    rw [(cleanStep2_frame _ _).2.1, (cleanStep1_frame _ _).2.1]
  unfold cleanStep3
  by_cases h : (validate_data_quality sch t).2.duplicate_departments
  · rw [if_pos h]
    show (dedupKeepFirst (fun d : DepartmentRow => d.dept_code) setRnDept ((cleanStep2
        (validate_data_quality sch t).2 (cleanStep1
        (validate_data_quality sch t).2 t)).departments)).Pairwise
      (fun a b => a.dept_code ≠ b.dept_code)
    rw [hin]
    exact @dedupKeepFirst_pairwise DepartmentRow (Option String) _
      (fun d => d.dept_code) setRnDept (fun a n => rfl) t.departments
  · rw [if_neg h]
    show ((cleanStep2 _ _).departments).Pairwise _
    rw [hin]
    exact hasDupBy_false_pairwise
      (show hasDupBy (fun d => d.dept_code) t.departments = false from
        Bool.eq_false_iff.mpr h)

theorem clean_student_pairwise (sch : EnrSchema) (t : Tables) :
    ((clean_data_quality_issues sch t
      (validate_data_quality sch t).2).student).Pairwise
      (fun a b => a.emplid ≠ b.emplid) := by
  refine List.Pairwise.sublist ?_ (step1_student_pairwise sch t)
  rw [clean_eq_steps]
  refine (cleanStep10_student_sub _ _).trans ?_
  rw [(cleanStep9_frame _ _).1]
  unfold cleanTo8 cleanStep8
  rw [(cleanStep8f_frame _ _).1, (cleanStep8e_frame _ _).1,
    (cleanStep8d_frame _ _).1, (cleanStep8c_frame _ _).1]
  refine (cleanStep8b_student_sub _ _).trans ?_
  refine (cleanStep8a_student_sub _ _).trans ?_
  rw [(cleanStep7_frame _ _).1, (cleanStep6_frame _ _).1,
    (cleanStep5_frame _ _).1, (cleanStep4_frame _ _ _).1,
    (cleanStep3_frame _ _).1, (cleanStep2_frame _ _).1]

theorem clean_departments_pairwise (sch : EnrSchema) (t : Tables) :
    ((clean_data_quality_issues sch t
      (validate_data_quality sch t).2).departments).Pairwise
      (fun a b => a.dept_code ≠ b.dept_code) := by
  refine List.Pairwise.sublist ?_ (step3_dept_pairwise sch t)
  rw [clean_eq_steps]
  rw [(cleanStep10_frame _ _).2.1, (cleanStep9_frame _ _).2.2]
  unfold cleanTo8 cleanStep8
  refine (cleanStep8f_dept_sub _ _).trans ?_
  rw [(cleanStep8e_frame _ _).2.2, (cleanStep8d_frame _ _).2.2,
    (cleanStep8c_frame _ _).2.2, (cleanStep8b_frame _ _).2.1,
    (cleanStep8a_frame _ _).2.1, (cleanStep7_frame _ _).2.2,
    (cleanStep6_frame _ _).2.2, (cleanStep5_frame _ _).2.1,
    (cleanStep4_frame _ _ _).2.2]

theorem clean_acad_pairwise (sch : EnrSchema) (t : Tables)
    (hA : ∀ a ∈ t.acad_prog, a.rn = none) :
    ((clean_data_quality_issues sch t
      (validate_data_quality sch t).2).acad_prog).Pairwise
      (fun a b => a ≠ b) := by
  have hacad2 : ((cleanStep2 (validate_data_quality sch t).2 (cleanStep1
      (validate_data_quality sch t).2 t)).acad_prog).Pairwise
      (fun a b => a ≠ b) := by
    have hin : (cleanStep1 (validate_data_quality sch t).2 t).acad_prog =
        t.acad_prog := (cleanStep1_frame _ _).1
    unfold cleanStep2
    by_cases h : (validate_data_quality sch t).2.duplicate_acad_prog
    · rw [if_pos h]
      show (dedupKeepFirst (fun a => a) setRnAcad _).Pairwise _
      rw [hin]
      refine dedupKeepFirst_pairwise_ne ?_
      intro a b ha hb heq
      have hra := hA a ha
      have hrb := hA b hb
      cases a
      cases b
      simp only [setRnAcad] at heq hra hrb
      simp_all
    · rw [if_neg h]
      show ((cleanStep1 _ _).acad_prog).Pairwise _
      rw [hin]
      exact hasDupBy_false_pairwise
        (show hasDupBy (fun a => a) t.acad_prog = false from
          Bool.eq_false_iff.mpr h)
  have hstu5 : ((cleanStep4 sch (validate_data_quality sch t).2 (cleanStep3
      (validate_data_quality sch t).2 (cleanStep2
      (validate_data_quality sch t).2 (cleanStep1
      (validate_data_quality sch t).2 t)))).student).Pairwise
      (fun a b => a.emplid ≠ b.emplid) := by
    rw [(cleanStep4_frame _ _ _).1, (cleanStep3_frame _ _).1,
      (cleanStep2_frame _ _).1]
    exact step1_student_pairwise sch t
  refine List.Pairwise.sublist ?_ hacad2
  rw [clean_eq_steps]
  rw [(cleanStep10_frame _ _).1, (cleanStep9_frame _ _).2.1]
  unfold cleanTo8 cleanStep8
  rw [(cleanStep8f_frame _ _).2.1, (cleanStep8e_frame _ _).2.1,
    (cleanStep8d_frame _ _).2.1, (cleanStep8c_frame _ _).2.1,
    (cleanStep8b_frame _ _).1, (cleanStep8a_frame _ _).1,
    (cleanStep7_frame _ _).2.1, (cleanStep6_frame _ _).2.1]
  refine (cleanStep5_acad_sublist hstu5).trans ?_
  rw [(cleanStep4_frame _ _ _).2.1, (cleanStep3_frame _ _).2.1]

theorem clean_enrollments_pairwise (sch : EnrSchema) (t : Tables) :
    ((clean_data_quality_issues sch t
      (validate_data_quality sch t).2).enrollments).Pairwise
      (fun a b => enrKey sch a ≠ enrKey sch b) := by
  have henr4 : ((cleanStep4 sch (validate_data_quality sch t).2 (cleanStep3
      (validate_data_quality sch t).2 (cleanStep2
      (validate_data_quality sch t).2 (cleanStep1
      (validate_data_quality sch t).2 t)))).enrollments).Pairwise
      (fun a b => enrKey sch a ≠ enrKey sch b) := by
    have hin : (cleanStep3 (validate_data_quality sch t).2 (cleanStep2
        (validate_data_quality sch t).2 (cleanStep1
        (validate_data_quality sch t).2 t))).enrollments = t.enrollments := by
      rw [(cleanStep3_frame _ _).2.2, (cleanStep2_frame _ _).2.2,
        (cleanStep1_frame _ _).2.2]
    unfold cleanStep4
    by_cases h : (validate_data_quality sch t).2.duplicate_enrollments
    · rw [if_pos h]
      show (dedupKeepFirst (enrKey sch) setRnEnr ((cleanStep3
          (validate_data_quality sch t).2 (cleanStep2
          (validate_data_quality sch t).2 (cleanStep1
          (validate_data_quality sch t).2 t))).enrollments)).Pairwise
        (fun a b => enrKey sch a ≠ enrKey sch b)
      rw [hin]
      exact @dedupKeepFirst_pairwise EnrollmentRow _ _
        (enrKey sch) setRnEnr (fun a n => rfl) t.enrollments
    · rw [if_neg h]
      show ((cleanStep3 _ _).enrollments).Pairwise _
      rw [hin]
      exact hasDupBy_false_pairwise
        (show hasDupBy (enrKey sch) t.enrollments = false from
          Bool.eq_false_iff.mpr h)
  -- the student and department tables the orphan repairs join against are
  -- key-unique at that point
  have hstu6 : ((cleanStep5 (validate_data_quality sch t).2 (cleanStep4 sch
      (validate_data_quality sch t).2 (cleanStep3
      (validate_data_quality sch t).2 (cleanStep2
      (validate_data_quality sch t).2 (cleanStep1
      (validate_data_quality sch t).2 t))))).student).Pairwise
      (fun a b => a.emplid ≠ b.emplid) := by
    rw [(cleanStep5_frame _ _).1, (cleanStep4_frame _ _ _).1,
      (cleanStep3_frame _ _).1, (cleanStep2_frame _ _).1]
    exact step1_student_pairwise sch t
  have hdep7 : ((cleanStep6 (validate_data_quality sch t).2 (cleanStep5
      (validate_data_quality sch t).2 (cleanStep4 sch
      (validate_data_quality sch t).2 (cleanStep3
      (validate_data_quality sch t).2 (cleanStep2
      (validate_data_quality sch t).2 (cleanStep1
      (validate_data_quality sch t).2 t)))))).departments).Pairwise
      (fun a b => a.dept_code ≠ b.dept_code) := by
    rw [(cleanStep6_frame _ _).2.2, (cleanStep5_frame _ _).2.1,
      (cleanStep4_frame _ _ _).2.2]
    exact step3_dept_pairwise sch t
  -- now push the pairwise property through steps 5-10
  have h8 : ((cleanTo8 sch (validate_data_quality sch t).2
      t).enrollments).Pairwise (fun a b => enrKey sch a ≠ enrKey sch b) := by
    unfold cleanTo8 cleanStep8
    rw [(cleanStep8f_frame _ _).2.2]
    refine List.Pairwise.sublist ((cleanStep8e_enr_sublist _ _).trans
      ((cleanStep8d_enr_sublist _ _).trans (cleanStep8c_enr_sublist _ _))) ?_
    rw [(cleanStep8b_frame _ _).2.2, (cleanStep8a_frame _ _).2.2]
    refine List.Pairwise.sublist (cleanStep7_enr_sublist hdep7) ?_
    refine List.Pairwise.sublist (cleanStep6_enr_sublist hstu6) ?_
    rw [(cleanStep5_frame _ _).2.2]
    exact henr4
  rw [clean_eq_steps, (cleanStep10_frame _ _).2.2]
  -- step 9 maps clampRow, which does not touch the key columns
  unfold cleanStep9
  split
  · show ((cleanTo8 sch (validate_data_quality sch t).2
        t).enrollments.map clampRow).Pairwise _
    rw [List.pairwise_map]
    exact h8.imp (fun h => h)
  · exact h8

/-! ### Reference survival through the cleaning pass -/

theorem cleanStep2_acad_origin {iss : Issues} {u : Tables} {a : AcadProgRow}
    (ha : a ∈ (cleanStep2 iss u).acad_prog) :
    a ∈ u.acad_prog ∨ ∃ a0 ∈ u.acad_prog, a = setRnAcad a0 1 := by
  unfold cleanStep2 at ha
  split at ha
  · exact Or.inr (dedupKeepFirst_shape ha)
  · exact Or.inl ha

theorem cleanStep5_acad_sub {iss : Issues} {u : Tables} {a : AcadProgRow}
    (ha : a ∈ (cleanStep5 iss u).acad_prog) : a ∈ u.acad_prog := by
  unfold cleanStep5 at ha
  split at ha
  · exact (mem_semiJoin.mp ha).1
  · exact ha

theorem stu1_emplid_surj (sch : EnrSchema) (t : Tables) {v : Int}
    (h : ∃ s ∈ t.student, s.emplid = some v) :
    ∃ s ∈ (cleanStep1 (validate_data_quality sch t).2 t).student,
      s.emplid = some v := by
  obtain ⟨s0, hs0, hv⟩ := h
  unfold cleanStep1
  split
  · obtain ⟨b, hb, hkb⟩ := @dedupKeepFirst_surj StudentRow (Option Int) _
      (fun s => s.emplid) setRnStudent (fun a n => rfl) t.student s0 hs0
    exact ⟨b, hb, by rw [show b.emplid = s0.emplid from hkb, hv]⟩
  · exact ⟨s0, hs0, hv⟩

theorem dept3_code_surj (sch : EnrSchema) (t : Tables) {v : String}
    (h : ∃ d ∈ t.departments, d.dept_code = some v) :
    ∃ d ∈ (cleanStep3 (validate_data_quality sch t).2 (cleanStep2
      (validate_data_quality sch t).2 (cleanStep1
      (validate_data_quality sch t).2 t))).departments,
      d.dept_code = some v := by
  obtain ⟨d0, hd0, hv⟩ := h
  have hin : (cleanStep2 (validate_data_quality sch t).2 (cleanStep1
      (validate_data_quality sch t).2 t)).departments = t.departments := by
    rw [(cleanStep2_frame _ _).2.1, (cleanStep1_frame _ _).2.1]
  unfold cleanStep3
  split
  · show ∃ d ∈ dedupKeepFirst (fun d : DepartmentRow => d.dept_code) setRnDept
      ((cleanStep2 (validate_data_quality sch t).2 (cleanStep1
        (validate_data_quality sch t).2 t)).departments), d.dept_code = some v
    rw [hin]
    obtain ⟨b, hb, hkb⟩ := @dedupKeepFirst_surj DepartmentRow (Option String) _
      (fun d => d.dept_code) setRnDept (fun a n => rfl) t.departments d0 hd0
    exact ⟨b, hb, by rw [show b.dept_code = d0.dept_code from hkb, hv]⟩
  · show ∃ d ∈ (cleanStep2 (validate_data_quality sch t).2 (cleanStep1
      (validate_data_quality sch t).2 t)).departments, d.dept_code = some v
    rw [hin]
    exact ⟨d0, hd0, hv⟩

theorem final_student_of_stu1 (sch : EnrSchema) (t : Tables)
    (h1 : (validate_data_quality sch t).2.null_student_last_name = false)
    (h2 : (validate_data_quality sch t).2.empty_student_names = false)
    {v : Int}
    (h : ∃ s ∈ (cleanStep1 (validate_data_quality sch t).2 t).student,
      s.emplid = some v) :
    ∃ s ∈ (clean_data_quality_issues sch t
      (validate_data_quality sch t).2).student, s.emplid = some v := by
  obtain ⟨s, hs, hv⟩ := h
  rw [clean_eq_steps]
  rw [show (cleanStep10 (validate_data_quality sch t).2 (cleanStep9
      (validate_data_quality sch t).2 (cleanTo8 sch
      (validate_data_quality sch t).2 t))).student = (cleanStep9
      (validate_data_quality sch t).2 (cleanTo8 sch
      (validate_data_quality sch t).2 t)).student by
    unfold cleanStep10
    rw [if_neg (by rw [h2]; exact Bool.false_ne_true)]]
  rw [(cleanStep9_frame _ _).1]
  unfold cleanTo8 cleanStep8
  rw [(cleanStep8f_frame _ _).1, (cleanStep8e_frame _ _).1,
    (cleanStep8d_frame _ _).1, (cleanStep8c_frame _ _).1]
  rw [show (cleanStep8b (validate_data_quality sch t).2 (cleanStep8a
      (validate_data_quality sch t).2 (cleanStep7
      (validate_data_quality sch t).2 (cleanStep6
      (validate_data_quality sch t).2 (cleanStep5
      (validate_data_quality sch t).2 (cleanStep4 sch
      (validate_data_quality sch t).2 (cleanStep3
      (validate_data_quality sch t).2 (cleanStep2
      (validate_data_quality sch t).2 (cleanStep1
      (validate_data_quality sch t).2 t))))))))).student = (cleanStep8a
      (validate_data_quality sch t).2 (cleanStep7
      (validate_data_quality sch t).2 (cleanStep6
      (validate_data_quality sch t).2 (cleanStep5
      (validate_data_quality sch t).2 (cleanStep4 sch
      (validate_data_quality sch t).2 (cleanStep3
      (validate_data_quality sch t).2 (cleanStep2
      (validate_data_quality sch t).2 (cleanStep1
      (validate_data_quality sch t).2 t)))))))).student by
    unfold cleanStep8b
    rw [if_neg (by rw [h1]; exact Bool.false_ne_true)]]
  have hstu : (cleanStep7 (validate_data_quality sch t).2 (cleanStep6
      (validate_data_quality sch t).2 (cleanStep5
      (validate_data_quality sch t).2 (cleanStep4 sch
      (validate_data_quality sch t).2 (cleanStep3
      (validate_data_quality sch t).2 (cleanStep2
      (validate_data_quality sch t).2 (cleanStep1
      (validate_data_quality sch t).2 t))))))).student = (cleanStep1
      (validate_data_quality sch t).2 t).student := by
    rw [(cleanStep7_frame _ _).1, (cleanStep6_frame _ _).1,
      (cleanStep5_frame _ _).1, (cleanStep4_frame _ _ _).1,
      (cleanStep3_frame _ _).1, (cleanStep2_frame _ _).1]
  unfold cleanStep8a
  split
  · show ∃ x ∈ List.filter _ _, x.emplid = some v
    rw [hstu]
    exact ⟨s, List.mem_filter.mpr ⟨hs, by rw [hv]; rfl⟩, hv⟩
  · show ∃ x ∈ (cleanStep7 _ _).student, x.emplid = some v
    rw [hstu]
    exact ⟨s, hs, hv⟩

theorem enr6_matched (sch : EnrSchema) (t : Tables) :
    ∀ e ∈ (cleanStep6 (validate_data_quality sch t).2 (cleanStep5
      (validate_data_quality sch t).2 (cleanStep4 sch
      (validate_data_quality sch t).2 (cleanStep3
      (validate_data_quality sch t).2 (cleanStep2
      (validate_data_quality sch t).2 (cleanStep1
      (validate_data_quality sch t).2 t)))))).enrollments,
      ∃ s ∈ (cleanStep1 (validate_data_quality sch t).2 t).student,
        sqlEqInt e.emplid s.emplid := by
  intro e he
  have hstu : (cleanStep5 (validate_data_quality sch t).2 (cleanStep4 sch
      (validate_data_quality sch t).2 (cleanStep3
      (validate_data_quality sch t).2 (cleanStep2
      (validate_data_quality sch t).2 (cleanStep1
      (validate_data_quality sch t).2 t))))).student = (cleanStep1
      (validate_data_quality sch t).2 t).student := by
    rw [(cleanStep5_frame _ _).1, (cleanStep4_frame _ _ _).1,
      (cleanStep3_frame _ _).1, (cleanStep2_frame _ _).1]
  unfold cleanStep6 at he
  split at he
  · obtain ⟨-, s, hs, hmatch⟩ := mem_semiJoin.mp he
    rw [hstu] at hs
    exact ⟨s, hs, hmatch⟩
  · rename_i hflag
    have hfl : t.enrollments.any (fun x =>
        !(t.student.any (fun s => sqlEqInt x.emplid s.emplid))) = false :=
      Bool.eq_false_iff.mpr hflag
    have hall := List.any_eq_false.mp hfl
    rw [(cleanStep5_frame _ _).2.2] at he
    have hemp : ∃ e0 ∈ t.enrollments, e.emplid = e0.emplid := by
      rcases cleanStep4_enr_origin he with he4 | ⟨e0, he0, rfl⟩
      · rw [(cleanStep3_frame _ _).2.2, (cleanStep2_frame _ _).2.2,
          (cleanStep1_frame _ _).2.2] at he4
        exact ⟨e, he4, rfl⟩
      · rw [(cleanStep3_frame _ _).2.2, (cleanStep2_frame _ _).2.2,
          (cleanStep1_frame _ _).2.2] at he0
        exact ⟨e0, he0, rfl⟩
    obtain ⟨e0, he0, hemp⟩ := hemp
    have h0 := hall e0 he0
    have h0b : t.student.any (fun s => sqlEqInt e0.emplid s.emplid) = true := by
      rcases Bool.eq_false_or_eq_true
        (t.student.any (fun s => sqlEqInt e0.emplid s.emplid)) with ht | hf
      · exact ht
      · exact absurd (by rw [hf]; rfl) h0
    obtain ⟨s0, hs0, hm⟩ := List.any_eq_true.mp h0b
    obtain ⟨v, hv1, hv2⟩ := sqlEqInt_true.mp hm
    obtain ⟨s, hs, hv⟩ := stu1_emplid_surj sch t ⟨s0, hs0, hv2⟩
    refine ⟨s, hs, ?_⟩
    rw [hemp, hv1, hv]
    simp [sqlEqInt]

theorem enr7_matched (sch : EnrSchema) (t : Tables) :
    ∀ e ∈ (cleanStep7 (validate_data_quality sch t).2 (cleanStep6
      (validate_data_quality sch t).2 (cleanStep5
      (validate_data_quality sch t).2 (cleanStep4 sch
      (validate_data_quality sch t).2 (cleanStep3
      (validate_data_quality sch t).2 (cleanStep2
      (validate_data_quality sch t).2 (cleanStep1
      (validate_data_quality sch t).2 t))))))).enrollments,
      ∃ d ∈ (cleanStep3 (validate_data_quality sch t).2 (cleanStep2
        (validate_data_quality sch t).2 (cleanStep1
        (validate_data_quality sch t).2 t))).departments,
        sqlEqStr e.department d.dept_code := by
  intro e he
  have hdep : (cleanStep6 (validate_data_quality sch t).2 (cleanStep5
      (validate_data_quality sch t).2 (cleanStep4 sch
      (validate_data_quality sch t).2 (cleanStep3
      (validate_data_quality sch t).2 (cleanStep2
      (validate_data_quality sch t).2 (cleanStep1
      (validate_data_quality sch t).2 t)))))).departments = (cleanStep3
      (validate_data_quality sch t).2 (cleanStep2
      (validate_data_quality sch t).2 (cleanStep1
      (validate_data_quality sch t).2 t))).departments := by
    rw [(cleanStep6_frame _ _).2.2, (cleanStep5_frame _ _).2.1,
      (cleanStep4_frame _ _ _).2.2]
  unfold cleanStep7 at he
  split at he
  · obtain ⟨-, d, hd, hmatch⟩ := mem_semiJoin.mp he
    rw [hdep] at hd
    exact ⟨d, hd, hmatch⟩
  · rename_i hflag
    have hfl : t.enrollments.any (fun x =>
        !(t.departments.any (fun d => sqlEqStr x.department d.dept_code))) = false :=
      Bool.eq_false_iff.mpr hflag
    have hall := List.any_eq_false.mp hfl
    have he6 := cleanStep6_enr_sub he
    rw [(cleanStep5_frame _ _).2.2] at he6
    have hdm : ∃ e0 ∈ t.enrollments, e.department = e0.department := by
      rcases cleanStep4_enr_origin he6 with he4 | ⟨e0, he0, rfl⟩
      · rw [(cleanStep3_frame _ _).2.2, (cleanStep2_frame _ _).2.2,
          (cleanStep1_frame _ _).2.2] at he4
        exact ⟨e, he4, rfl⟩
      · rw [(cleanStep3_frame _ _).2.2, (cleanStep2_frame _ _).2.2,
          (cleanStep1_frame _ _).2.2] at he0
        exact ⟨e0, he0, rfl⟩
    obtain ⟨e0, he0, hdm⟩ := hdm
    have h0 := hall e0 he0
    have h0b : t.departments.any (fun d => sqlEqStr e0.department d.dept_code) = true := by
      rcases Bool.eq_false_or_eq_true
        (t.departments.any (fun d => sqlEqStr e0.department d.dept_code)) with ht | hf
      · exact ht
      · exact absurd (by rw [hf]; rfl) h0
    obtain ⟨d0, hd0, hm⟩ := List.any_eq_true.mp h0b
    obtain ⟨v, hv1, hv2⟩ := sqlEqStr_true.mp hm
    obtain ⟨d, hd, hv⟩ := dept3_code_surj sch t ⟨d0, hd0, hv2⟩
    refine ⟨d, hd, ?_⟩
    rw [hdm, hv1, hv]
    simp [sqlEqStr]

theorem acad5_matched (sch : EnrSchema) (t : Tables) :
    ∀ a ∈ (cleanStep5 (validate_data_quality sch t).2 (cleanStep4 sch
      (validate_data_quality sch t).2 (cleanStep3
      (validate_data_quality sch t).2 (cleanStep2
      (validate_data_quality sch t).2 (cleanStep1
      (validate_data_quality sch t).2 t))))).acad_prog,
      ∃ s ∈ (cleanStep1 (validate_data_quality sch t).2 t).student,
        sqlEqInt a.emplid s.emplid := by
  intro a ha
  have hstu : (cleanStep4 sch (validate_data_quality sch t).2 (cleanStep3
      (validate_data_quality sch t).2 (cleanStep2
      (validate_data_quality sch t).2 (cleanStep1
      (validate_data_quality sch t).2 t)))).student = (cleanStep1
      (validate_data_quality sch t).2 t).student := by
    rw [(cleanStep4_frame _ _ _).1, (cleanStep3_frame _ _).1,
      (cleanStep2_frame _ _).1]
  unfold cleanStep5 at ha
  split at ha
  · obtain ⟨-, s, hs, hmatch⟩ := mem_semiJoin.mp ha
    rw [hstu] at hs
    exact ⟨s, hs, hmatch⟩
  · rename_i hflag
    have hfl : t.acad_prog.any (fun x =>
        !(t.student.any (fun s => sqlEqInt x.emplid s.emplid))) = false :=
      Bool.eq_false_iff.mpr hflag
    have hall := List.any_eq_false.mp hfl
    rw [(cleanStep4_frame _ _ _).2.1, (cleanStep3_frame _ _).2.1] at ha
    have hemp : ∃ a0 ∈ t.acad_prog, a.emplid = a0.emplid := by
      rcases cleanStep2_acad_origin ha with ha2 | ⟨a0, ha0, rfl⟩
      · rw [(cleanStep1_frame _ _).1] at ha2
        exact ⟨a, ha2, rfl⟩
      · rw [(cleanStep1_frame _ _).1] at ha0
        exact ⟨a0, ha0, rfl⟩
    obtain ⟨a0, ha0, hemp⟩ := hemp
    have h0 := hall a0 ha0
    have h0b : t.student.any (fun s => sqlEqInt a0.emplid s.emplid) = true := by
      rcases Bool.eq_false_or_eq_true
        (t.student.any (fun s => sqlEqInt a0.emplid s.emplid)) with ht | hf
      · exact ht
      · exact absurd (by rw [hf]; rfl) h0
    obtain ⟨s0, hs0, hm⟩ := List.any_eq_true.mp h0b
    obtain ⟨v, hv1, hv2⟩ := sqlEqInt_true.mp hm
    obtain ⟨s, hs, hv⟩ := stu1_emplid_surj sch t ⟨s0, hs0, hv2⟩
    refine ⟨s, hs, ?_⟩
    rw [hemp, hv1, hv]
    simp [sqlEqInt]

theorem final_enr_from7 (sch : EnrSchema) (t : Tables) :
    ∀ e ∈ (clean_data_quality_issues sch t
      (validate_data_quality sch t).2).enrollments,
      ∃ e1 ∈ (cleanStep7 (validate_data_quality sch t).2 (cleanStep6
        (validate_data_quality sch t).2 (cleanStep5
        (validate_data_quality sch t).2 (cleanStep4 sch
        (validate_data_quality sch t).2 (cleanStep3
        (validate_data_quality sch t).2 (cleanStep2
        (validate_data_quality sch t).2 (cleanStep1
        (validate_data_quality sch t).2 t))))))).enrollments,
        e.emplid = e1.emplid ∧ e.department = e1.department := by
  intro e he
  rw [clean_eq_steps, (cleanStep10_frame _ _).2.2] at he
  have hstep : ∀ x ∈ (cleanTo8 sch (validate_data_quality sch t).2
      t).enrollments, x ∈ (cleanStep7 (validate_data_quality sch t).2
      (cleanStep6 (validate_data_quality sch t).2 (cleanStep5
      (validate_data_quality sch t).2 (cleanStep4 sch
      (validate_data_quality sch t).2 (cleanStep3
      (validate_data_quality sch t).2 (cleanStep2
      (validate_data_quality sch t).2 (cleanStep1
      (validate_data_quality sch t).2 t))))))).enrollments := by
    intro x hx
    unfold cleanTo8 cleanStep8 at hx
    rw [(cleanStep8f_frame _ _).2.2] at hx
    have hx2 := cleanStep8c_enr_sub (cleanStep8d_enr_sub (cleanStep8e_enr_sub hx))
    rw [(cleanStep8b_frame _ _).2.2, (cleanStep8a_frame _ _).2.2] at hx2
    exact hx2
  unfold cleanStep9 at he
  split at he
  · obtain ⟨e1, he1, rfl⟩ := List.mem_map.mp he
    exact ⟨e1, hstep e1 he1, rfl, rfl⟩
  · exact ⟨e, hstep e he, rfl, rfl⟩

theorem final_dept_of_dept3 (sch : EnrSchema) (t : Tables) {v : String}
    (h : ∃ d ∈ (cleanStep3 (validate_data_quality sch t).2 (cleanStep2
      (validate_data_quality sch t).2 (cleanStep1
      (validate_data_quality sch t).2 t))).departments, d.dept_code = some v) :
    ∃ d ∈ (clean_data_quality_issues sch t
      (validate_data_quality sch t).2).departments, d.dept_code = some v := by
  obtain ⟨d, hd, hv⟩ := h
  rw [clean_eq_steps, (cleanStep10_frame _ _).2.1, (cleanStep9_frame _ _).2.2]
  unfold cleanTo8 cleanStep8
  have hin : (cleanStep8e (validate_data_quality sch t).2 (cleanStep8d
      (validate_data_quality sch t).2 (cleanStep8c
      (validate_data_quality sch t).2 (cleanStep8b
      (validate_data_quality sch t).2 (cleanStep8a
      (validate_data_quality sch t).2 (cleanStep7
      (validate_data_quality sch t).2 (cleanStep6
      (validate_data_quality sch t).2 (cleanStep5
      (validate_data_quality sch t).2 (cleanStep4 sch
      (validate_data_quality sch t).2 (cleanStep3
      (validate_data_quality sch t).2 (cleanStep2
      (validate_data_quality sch t).2 (cleanStep1
      (validate_data_quality sch t).2 t)))))))))))).departments = (cleanStep3
      (validate_data_quality sch t).2 (cleanStep2
      (validate_data_quality sch t).2 (cleanStep1
      (validate_data_quality sch t).2 t))).departments := by
    rw [(cleanStep8e_frame _ _).2.2, (cleanStep8d_frame _ _).2.2,
      (cleanStep8c_frame _ _).2.2, (cleanStep8b_frame _ _).2.1,
      (cleanStep8a_frame _ _).2.1, (cleanStep7_frame _ _).2.2,
      (cleanStep6_frame _ _).2.2, (cleanStep5_frame _ _).2.1,
      (cleanStep4_frame _ _ _).2.2]
  unfold cleanStep8f
  split
  · show ∃ x ∈ List.filter _ _, x.dept_code = some v
    rw [hin]
    exact ⟨d, List.mem_filter.mpr ⟨hd, by rw [hv]; rfl⟩, hv⟩
  · show ∃ x ∈ (cleanStep8e _ _).departments, x.dept_code = some v
    rw [hin]
    exact ⟨d, hd, hv⟩

theorem final_acad_eq_acad5 (sch : EnrSchema) (t : Tables) :
    (clean_data_quality_issues sch t
      (validate_data_quality sch t).2).acad_prog = (cleanStep5
      (validate_data_quality sch t).2 (cleanStep4 sch
      (validate_data_quality sch t).2 (cleanStep3
      (validate_data_quality sch t).2 (cleanStep2
      (validate_data_quality sch t).2 (cleanStep1
      (validate_data_quality sch t).2 t))))).acad_prog := by
  rw [clean_eq_steps, (cleanStep10_frame _ _).1, (cleanStep9_frame _ _).2.1]
  unfold cleanTo8 cleanStep8
  rw [(cleanStep8f_frame _ _).2.1, (cleanStep8e_frame _ _).2.1,
    (cleanStep8d_frame _ _).2.1, (cleanStep8c_frame _ _).2.1,
    (cleanStep8b_frame _ _).1, (cleanStep8a_frame _ _).1,
    (cleanStep7_frame _ _).2.1, (cleanStep6_frame _ _).2.1]

/-! ### Concrete inputs used by the claim theorems -/

/-- A dataset whose only detected issue is check 11 (a student with zero
enrollments, severity `warning`). -/
def warnOnlyTables : Tables :=
  { student := [{ emplid := some 1, last_name := some "Smith" }],
    acad_prog := [], departments := [], enrollments := [] }

/-- A dataset where the only error-severity issue is an empty student last
name, while an enrollment references that student: cleaning drops the student
after the orphan repairs already ran, leaving a dangling reference. -/
def cascadeTables : Tables :=
  { student := [{ emplid := some 1, last_name := some "" }],
    acad_prog := [],
    departments := [{ dept_code := some "PHYS", dept_name := some "Physics",
                      contact_person := none }],
    enrollments := [{ emplid := some 1, strm := some "2244",
                      department := some "PHYS", credit_hours := some 3,
                      course_id := none, class_nbr := none }] }

/-- The validator's issue set for `cascadeTables`. -/
def cascadeIssues : Issues := (validate_data_quality ⟨false, false⟩ cascadeTables).2

/-- A dataset with both an orphaned enrollment and an empty-name student, on
which the orphan and empty-name repairs do not commute. -/
def orderTables : Tables :=
  { student := [{ emplid := some 1, last_name := some "" }],
    acad_prog := [],
    departments := [{ dept_code := some "D", dept_name := none,
                      contact_person := none }],
    enrollments :=
      [{ emplid := some 1, strm := some "T", department := some "D",
         credit_hours := some 3, course_id := none, class_nbr := none },
       { emplid := some 2, strm := some "T", department := some "D",
         credit_hours := some 3, course_id := none, class_nbr := none }] }

/-- The validator's issue set for `orderTables`. -/
def orderIssues : Issues := (validate_data_quality ⟨false, false⟩ orderTables).2

/-- A dataset with duplicate rows in all four tables. -/
def dupTables : Tables :=
  { student := [{ emplid := some 1, last_name := some "X" },
                { emplid := some 1, last_name := some "X" }],
    acad_prog := [{ emplid := some 1, acad_prog := some "CS", effdt := none },
                  { emplid := some 1, acad_prog := some "CS", effdt := none }],
    departments := [{ dept_code := some "D", dept_name := none, contact_person := none },
                    { dept_code := some "D", dept_name := none, contact_person := none }],
    enrollments :=
      [{ emplid := some 1, strm := some "T", department := some "D",
         credit_hours := some 3, course_id := none, class_nbr := none },
       { emplid := some 1, strm := some "T", department := some "D",
         credit_hours := some 3, course_id := none, class_nbr := none }] }

/-- The validator's issue set for `dupTables`. -/
def dupIssues : Issues := (validate_data_quality ⟨false, false⟩ dupTables).2

/-! ### Claim theorems -/

/-- C1: the claim states the Validator's result is clean iff no error-severity
issue was found, and that a warning-only dataset (check 11 only) reports
`allClean = true` and still yields a full report.  The code disagrees: on
`warnOnlyTables` the only issue is the check-11 warning, yet
`validate_data_quality` returns `is_valid = false` (it tests dictionary
emptiness, ignoring severity) and the pipeline aborts after the no-op cleaning
pass, producing no report — contradicting the code's own severity taxonomy
(`severity: warning`, "may be valid for new admits"). -/
theorem c1_warning_only_blocks_pipeline :
    (validate_data_quality ⟨false, false⟩ warnOnlyTables).2.students_no_enrollments = true ∧
    (validate_data_quality ⟨false, false⟩ warnOnlyTables).2.hasError = false ∧
    (validate_data_quality ⟨false, false⟩ warnOnlyTables).1 = false ∧
    runPipeline ⟨false, false⟩ warnOnlyTables = none := by
  refine ⟨by decide, by decide, by decide, by decide⟩

/-- C7 counterexample: applying the five repair families with the empty-name
family moved first yields a different final workspace than the fixed order
(the fixed order keeps the enrollment of student 1; the permuted order drops
every enrollment). -/
theorem c7_counterexample :
    repairClamp orderIssues (repairNulls orderIssues (repairOrphans orderIssues
      (repairDuplicates ⟨false, false⟩ orderIssues
        (repairEmptyNames orderIssues orderTables)))) ≠
    clean_data_quality_issues ⟨false, false⟩ orderTables orderIssues := by
  decide

/-- C7 (amended): the Cleaner applies the repair families in the fixed order
duplicates → orphans → null-required-fields → domain-clamp → empty-names;
the families do not commute in general (see the counterexample), though
families touching disjoint tables — the domain clamp (Enrollment) and the
empty-name repair (Student) — do commute. -/
theorem c7_fixed_order_and_disjoint_commute :
    (∀ (sch : EnrSchema) (iss : Issues) (t : Tables),
      clean_data_quality_issues sch t iss =
        repairEmptyNames iss (repairClamp iss (repairNulls iss (repairOrphans iss
          (repairDuplicates sch iss t))))) ∧
    (∀ (iss : Issues) (t : Tables),
      repairClamp iss (repairEmptyNames iss t) =
        repairEmptyNames iss (repairClamp iss t)) := by
  refine ⟨fun sch iss t => rfl, fun iss t => ?_⟩
  unfold repairClamp repairEmptyNames cleanStep9 cleanStep10
  by_cases h1 : iss.invalid_credit_hours <;> by_cases h2 : iss.empty_student_names <;>
    simp [h1, h2]

/-- C8: if an error-severity issue survives the single cleaning pass and its
re-validation, `run` aborts with no report; and the pipeline performs at most
one cleaning pass (its result is always the direct report, the report of the
once-cleaned tables, or an abort — there is no repeat-until-clean loop). -/
theorem c8_abort_on_surviving_error (sch : EnrSchema) (t : Tables)
    (herr : (validate_data_quality sch (clean_data_quality_issues sch t
      (validate_data_quality sch t).2)).2.hasError = true) :
    runPipeline sch t = none ∧
    ∀ u : Tables,
      runPipeline sch u = some (final_select u) ∨
      runPipeline sch u = some (final_select (clean_data_quality_issues sch u
        (validate_data_quality sch u).2)) ∨
      runPipeline sch u = none := by
  constructor
  · by_cases hv : (validate_data_quality sch t).1
    · exfalso
      have hflag : (validate_data_quality sch t).2.anyFlag = false := by
        have : (validate_data_quality sch t).1 =
            !(validate_data_quality sch t).2.anyFlag := rfl
        rw [this] at hv
        simpa using hv
      rw [clean_of_no_flags sch t hflag] at herr
      rw [anyFlag_false_hasError hflag] at herr
      exact Bool.false_ne_true herr
    · have hv2 : (validate_data_quality sch (clean_data_quality_issues sch t
          (validate_data_quality sch t).2)).1 = false := by
        have : (validate_data_quality sch (clean_data_quality_issues sch t
            (validate_data_quality sch t).2)).1 =
          !(validate_data_quality sch (clean_data_quality_issues sch t
            (validate_data_quality sch t).2)).2.anyFlag := rfl
        rw [this, hasError_true_anyFlag herr]
        rfl
      simp only [runPipeline]
      rw [if_neg hv, if_neg (by rw [hv2]; exact Bool.false_ne_true)]
  · intro u
    simp only [runPipeline]
    by_cases h1 : (validate_data_quality sch u).1
    · rw [if_pos h1]
      exact Or.inl rfl
    · rw [if_neg h1]
      by_cases h2 : (validate_data_quality sch (clean_data_quality_issues sch u
          (validate_data_quality sch u).2)).1
      · rw [if_pos h2]
        exact Or.inr (Or.inl rfl)
      · rw [if_neg h2]
        exact Or.inr (Or.inr rfl)

/-- C8 witness: on `cascadeTables` an error-severity issue (the re-introduced
orphaned enrollment) survives the cleaning pass, and the pipeline aborts. -/
theorem c8_witness : runPipeline ⟨false, false⟩ cascadeTables = none :=
  (c8_abort_on_surviving_error ⟨false, false⟩ cascadeTables (by decide)).1

/-- C10: whenever a duplicate-row repair applies to a table, the repaired
table's rows are not the original rows unchanged: every surviving row carries
the new `rn` column set to 1 (so it differs from every row of the input
table, whose `rn` column is absent), and equals an original row extended with
`rn = 1`. -/
theorem c10_dedup_appends_rn (sch : EnrSchema) (iss : Issues) (t : Tables)
    (hS : ∀ s ∈ t.student, s.rn = none) (hA : ∀ a ∈ t.acad_prog, a.rn = none)
    (hD : ∀ d ∈ t.departments, d.rn = none) (hE : ∀ e ∈ t.enrollments, e.rn = none) :
    (iss.duplicate_students = true → ∀ s ∈ (cleanStep1 iss t).student,
      s.rn = some 1 ∧ s ∉ t.student ∧ ∃ s0 ∈ t.student, s = setRnStudent s0 1) ∧
    (iss.duplicate_acad_prog = true → ∀ a ∈ (cleanStep2 iss t).acad_prog,
      a.rn = some 1 ∧ a ∉ t.acad_prog ∧ ∃ a0 ∈ t.acad_prog, a = setRnAcad a0 1) ∧
    (iss.duplicate_departments = true → ∀ d ∈ (cleanStep3 iss t).departments,
      d.rn = some 1 ∧ d ∉ t.departments ∧ ∃ d0 ∈ t.departments, d = setRnDept d0 1) ∧
    (iss.duplicate_enrollments = true → ∀ e ∈ (cleanStep4 sch iss t).enrollments,
      e.rn = some 1 ∧ e ∉ t.enrollments ∧ ∃ e0 ∈ t.enrollments, e = setRnEnr e0 1) := by
  refine ⟨?_, ?_, ?_, ?_⟩
  · intro hf s hs
    rw [cleanStep1, if_pos hf] at hs
    obtain ⟨s0, hs0, rfl⟩ := dedupKeepFirst_shape hs
    refine ⟨rfl, ?_, s0, hs0, rfl⟩
    intro hmem
    have := hS _ hmem
    simp [setRnStudent] at this
  · intro hf a ha
    rw [cleanStep2, if_pos hf] at ha
    obtain ⟨a0, ha0, rfl⟩ := dedupKeepFirst_shape ha
    refine ⟨rfl, ?_, a0, ha0, rfl⟩
    intro hmem
    have := hA _ hmem
    simp [setRnAcad] at this
  · intro hf d hd
    rw [cleanStep3, if_pos hf] at hd
    obtain ⟨d0, hd0, rfl⟩ := dedupKeepFirst_shape hd
    refine ⟨rfl, ?_, d0, hd0, rfl⟩
    intro hmem
    have := hD _ hmem
    simp [setRnDept] at this
  · intro hf e he
    rw [cleanStep4, if_pos hf] at he
    obtain ⟨e0, he0, rfl⟩ := dedupKeepFirst_shape he
    refine ⟨rfl, ?_, e0, he0, rfl⟩
    intro hmem
    have := hE _ hmem
    simp [setRnEnr] at this

/-- C10 witness: on `dupTables` the duplicate-student repair keeps the row
extended with `rn = 1`, which is not a row of the input table. -/
theorem c10_witness :
    ({ emplid := some 1, last_name := some "X", rn := some 1 } : StudentRow).rn = some 1 ∧
    ({ emplid := some 1, last_name := some "X", rn := some 1 } : StudentRow) ∉
      dupTables.student :=
  let h := (c10_dedup_appends_rn ⟨false, false⟩ dupIssues dupTables
    (by decide) (by decide) (by decide) (by decide)).1 (by decide)
    { emplid := some 1, last_name := some "X", rn := some 1 } (by decide)
  ⟨h.1, h.2.1⟩

/-- The §8 aggregation dataset, with the department's contact person removed. -/
def noContactTables : Tables :=
  { student := [{ emplid := some 1, last_name := some "Anderson" }],
    acad_prog := [],
    departments := [{ dept_code := some "PHYS", dept_name := some "Physics",
                      contact_person := none }],
    enrollments := [{ emplid := some 1, strm := some "2244",
                      department := some "PHYS", credit_hours := some 13,
                      course_id := none, class_nbr := none }] }

/-- C2 counterexample: when the focused department has no contact person the
report row's `focused_department_contact` is SQL NULL, not the empty string —
the final SELECT reads `d.CONTACT_PERSON` through two LEFT JOINs with no
COALESCE. -/
theorem c2_counterexample :
    ((final_select noContactTables).map
        (fun r => r.focused_department_contact) = [none]) ∧
    ¬ ((final_select noContactTables).map
        (fun r => r.focused_department_contact) = [some ""]) := by
  exact ⟨by decide, by decide⟩

/-- C2 (amended): in every ReportRow produced by the final join,
`focused_department_contact` is NULL (not the empty string) whenever the
focused department has no contact person or the student-term has no matching
department row: the field is either NULL or copied verbatim from some
department row's non-null `contact_person`.  (The empty string the spec
describes appears only in the serialized CSV, where the writer renders NULL
as an empty field.) -/
theorem c2_contact_null_when_absent (t : Tables) :
    ∀ r ∈ final_select t,
      r.focused_department_contact = none ∨
      ∃ d ∈ t.departments, r.focused_department_contact = d.contact_person ∧
        d.contact_person ≠ none := by
  intro r hr
  obtain ⟨tr, _, hrr⟩ := mem_final_select hr
  obtain ⟨_, _, _, hdept, _⟩ := mem_reportRowsFor hrr
  rcases hdept with ⟨_, _, hc⟩ | ⟨rd, hrd, _, hc⟩
  · exact Or.inl hc
  · have hrdm : rd ∈ ranked_depts t := (List.mem_filter.mp hrd).1
    obtain ⟨a, ha, hra⟩ := ranked_origin hrdm
    have hcontact : rd.dept_contact = a.dept_contact := by
      rw [hra]
      rfl
    rcases cbdJoinDepts_contact ha with hnone | ⟨d, hd, hda⟩
    · exact Or.inl (by rw [hc, hcontact, hnone])
    · rcases hdc : d.contact_person with _ | v
      · exact Or.inl (by rw [hc, hcontact, hda, hdc])
      · exact Or.inr ⟨d, hd, by rw [hc, hcontact, hda], by rw [hdc]; exact
          (Option.some_ne_none v)⟩

/-- C2 witness: the amended property instantiated at `noContactTables` and
its single report row. -/
theorem c2_witness :
    ({ student_id := some 1, last_name := some "Anderson", term := some "2244",
       total_credits := some 13, focused_department_name := some "Physics",
       focused_department_contact := none } : ReportRow).focused_department_contact
        = none ∨
    ∃ d ∈ noContactTables.departments,
      ({ student_id := some 1, last_name := some "Anderson", term := some "2244",
         total_credits := some 13, focused_department_name := some "Physics",
         focused_department_contact := none } : ReportRow).focused_department_contact
          = d.contact_person ∧ d.contact_person ≠ none :=
  c2_contact_null_when_absent noContactTables _ (by decide)

/-- C4: the credit-hour repair clamps and never drops — values below 0 become
0, values above 30 become 30, others are unchanged; the repair preserves the
row count; and after the full cleaning pass (with the validator's issue set)
every Enrollment row satisfies `0 ≤ credit_hours ≤ 30`. -/
theorem c4_clamp_domain (sch : EnrSchema) (t : Tables) :
    (∀ c : Int, (c < 0 → clampCH (some c) = some 0) ∧
      (30 < c → clampCH (some c) = some 30) ∧
      (0 ≤ c → c ≤ 30 → clampCH (some c) = some c)) ∧
    (∀ (iss : Issues) (u : Tables),
      (cleanStep9 iss u).enrollments.length = u.enrollments.length) ∧
    (∀ (iss : Issues) (u : Tables), iss.invalid_credit_hours = true →
      (cleanStep9 iss u).enrollments = u.enrollments.map clampRow) ∧
    (∀ e ∈ (clean_data_quality_issues sch t
        (validate_data_quality sch t).2).enrollments,
      ∃ c : Int, e.credit_hours = some c ∧ 0 ≤ c ∧ c ≤ 30) := by
  refine ⟨?_, ?_, ?_, ?_⟩
  · intro c
    refine ⟨fun h => by simp [clampCH, h], fun h => ?_, fun h1 h2 => ?_⟩
    · have h3 : ¬ c < 0 := by omega
      simp [clampCH, h3, h]
    · have h3 : ¬ c < 0 := by omega
      have h4 : ¬ 30 < c := by omega
      simp [clampCH, h3, h4]
  · intro iss u
    unfold cleanStep9
    split
    · exact List.length_map _ _
    · rfl
  · intro iss u h
    unfold cleanStep9
    rw [if_pos h]
  · intro e he
    rw [clean_eq_steps] at he
    rw [(cleanStep10_frame _ _).2.2] at he
    by_cases hinv : (validate_data_quality sch t).2.invalid_credit_hours
    · -- the clamp ran over every remaining row
      unfold cleanStep9 at he
      rw [if_pos hinv] at he
      obtain ⟨e1, he1, rfl⟩ := List.mem_map.mp he
      obtain ⟨c1, hc1⟩ := Option.ne_none_iff_exists'.mp (cleanTo8_enr_some sch t e1 he1)
      refine ⟨if c1 < 0 then 0 else if 30 < c1 then 30 else c1, ?_, ?_, ?_⟩
      · show clampCH e1.credit_hours = _
        rw [hc1]
        rfl
      · split <;> omega
      · split
        · omega
        · split <;> omega
    · -- no out-of-range value was present, and steps 1-8 never create one
      unfold cleanStep9 at he
      rw [if_neg hinv] at he
      obtain ⟨c, hc⟩ := Option.ne_none_iff_exists'.mp (cleanTo8_enr_some sch t e he)
      obtain ⟨e0, he0, hor⟩ := cleanTo8_enr_origin sch _ t e he
      have hall : ∀ x ∈ t.enrollments, ¬ (invalidCH x.credit_hours = true) := by
        have heq : (validate_data_quality sch t).2.invalid_credit_hours =
            t.enrollments.any (fun x => invalidCH x.credit_hours) := rfl
        rw [heq] at hinv
        exact List.any_eq_false.mp (Bool.eq_false_iff.mpr hinv)
      have hch : e0.credit_hours = some c := by
        rcases hor with rfl | rfl
        · exact hc
        · exact hc
      have h0 := hall e0 he0
      rw [hch] at h0
      refine ⟨c, hc, ?_, ?_⟩ <;>
        · by_contra hlt
          exact h0 (by simp [invalidCH]; omega)

/-- C4 witness: the clamp behaviour at concrete values and the post-clean
domain invariant on a dataset with an out-of-range credit value. -/
theorem c4_witness :
    clampCH (some (-5)) = some 0 ∧ clampCH (some 99) = some 30 ∧
    clampCH (some 13) = some 13 := by
  have h := (c4_clamp_domain ⟨false, false⟩ noContactTables).1
  exact ⟨(h (-5)).1 (by decide), (h 99).2.1 (by decide),
    (h 13).2.2 (by decide) (by decide)⟩

/-- C9: after the full cleaning pass with the validator's issue set, no table
contains duplicate natural keys: Student is unique on EMPLID, Department on
DEPT_CODE, AcademicProgram on all its columns, and Enrollment on
(EMPLID, STRM) plus COURSE_ID/CLASS_NBR when those columns exist.  (The
hypothesis says the loaded AcademicProgram table does not already carry an
`rn` column, which is true of every freshly loaded table.) -/
theorem c9_no_duplicates_post_clean (sch : EnrSchema) (t : Tables)
    (hA : ∀ a ∈ t.acad_prog, a.rn = none) :
    ((clean_data_quality_issues sch t
      (validate_data_quality sch t).2).student).Pairwise
      (fun a b => a.emplid ≠ b.emplid) ∧
    ((clean_data_quality_issues sch t
      (validate_data_quality sch t).2).departments).Pairwise
      (fun a b => a.dept_code ≠ b.dept_code) ∧
    ((clean_data_quality_issues sch t
      (validate_data_quality sch t).2).acad_prog).Pairwise (fun a b => a ≠ b) ∧
    ((clean_data_quality_issues sch t
      (validate_data_quality sch t).2).enrollments).Pairwise
      (fun a b => enrKey sch a ≠ enrKey sch b) :=
  ⟨clean_student_pairwise sch t, clean_departments_pairwise sch t,
   clean_acad_pairwise sch t hA, clean_enrollments_pairwise sch t⟩

/-- C9 witness: the post-clean uniqueness invariant on `dupTables`, which has
duplicate rows in all four tables. -/
theorem c9_witness :
    ((clean_data_quality_issues ⟨false, false⟩ dupTables
      (validate_data_quality ⟨false, false⟩ dupTables).2).student).Pairwise
      (fun a b => a.emplid ≠ b.emplid) ∧
    ((clean_data_quality_issues ⟨false, false⟩ dupTables
      (validate_data_quality ⟨false, false⟩ dupTables).2).departments).Pairwise
      (fun a b => a.dept_code ≠ b.dept_code) ∧
    ((clean_data_quality_issues ⟨false, false⟩ dupTables
      (validate_data_quality ⟨false, false⟩ dupTables).2).acad_prog).Pairwise
      (fun a b => a ≠ b) ∧
    ((clean_data_quality_issues ⟨false, false⟩ dupTables
      (validate_data_quality ⟨false, false⟩ dupTables).2).enrollments).Pairwise
      (fun a b => enrKey ⟨false, false⟩ a ≠ enrKey ⟨false, false⟩ b) :=
  c9_no_duplicates_post_clean ⟨false, false⟩ dupTables (by decide)

/-- C3 counterexample: on `cascadeTables` the only error-severity issue is an
empty student last name; the empty-name repair (step 10) runs after the
orphan repairs (steps 5–7), drops the referenced student, and leaves the
enrollment table with a dangling EMPLID after the cleaning pass. -/
theorem c3_counterexample :
    ¬ (∀ e ∈ (clean_data_quality_issues ⟨false, false⟩ cascadeTables
        (validate_data_quality ⟨false, false⟩ cascadeTables).2).enrollments,
        ∃ s ∈ (clean_data_quality_issues ⟨false, false⟩ cascadeTables
          (validate_data_quality ⟨false, false⟩ cascadeTables).2).student,
          sqlEqInt e.emplid s.emplid) := by
  decide

/-- C3 (amended): after one cleaning pass with the validator's issue set,
there are no dangling references — every Enrollment EMPLID and
AcademicProgram EMPLID matches a Student row and every Enrollment DEPARTMENT
matches a Department DEPT_CODE — provided the issue set contains no repair
that drops Student rows after the orphan repairs ran, i.e. no
`null_student_last_name` and no `empty_student_names` issue.  (When those
issues are present, dropping the offending students can re-introduce dangling
references, as the counterexample shows.) -/
theorem c3_no_dangling_refs (sch : EnrSchema) (t : Tables)
    (h1 : (validate_data_quality sch t).2.null_student_last_name = false)
    (h2 : (validate_data_quality sch t).2.empty_student_names = false) :
    (∀ e ∈ (clean_data_quality_issues sch t
        (validate_data_quality sch t).2).enrollments,
      ∃ s ∈ (clean_data_quality_issues sch t
        (validate_data_quality sch t).2).student,
        sqlEqInt e.emplid s.emplid) ∧
    (∀ e ∈ (clean_data_quality_issues sch t
        (validate_data_quality sch t).2).enrollments,
      ∃ d ∈ (clean_data_quality_issues sch t
        (validate_data_quality sch t).2).departments,
        sqlEqStr e.department d.dept_code) ∧
    (∀ a ∈ (clean_data_quality_issues sch t
        (validate_data_quality sch t).2).acad_prog,
      ∃ s ∈ (clean_data_quality_issues sch t
        (validate_data_quality sch t).2).student,
        sqlEqInt a.emplid s.emplid) := by
  refine ⟨?_, ?_, ?_⟩
  · intro e he
    obtain ⟨e1, he1, hemp, -⟩ := final_enr_from7 sch t e he
    have he6 := cleanStep7_enr_sub he1
    obtain ⟨s, hs, hm⟩ := enr6_matched sch t e1 he6
    obtain ⟨v, hv1, hv2⟩ := sqlEqInt_true.mp hm
    obtain ⟨s2, hs2, hv⟩ := final_student_of_stu1 sch t h1 h2 ⟨s, hs, hv2⟩
    refine ⟨s2, hs2, ?_⟩
    rw [hemp, hv1, hv]
    simp [sqlEqInt]
  · intro e he
    obtain ⟨e1, he1, -, hdep⟩ := final_enr_from7 sch t e he
    obtain ⟨d, hd, hm⟩ := enr7_matched sch t e1 he1
    obtain ⟨v, hv1, hv2⟩ := sqlEqStr_true.mp hm
    obtain ⟨d2, hd2, hv⟩ := final_dept_of_dept3 sch t ⟨d, hd, hv2⟩
    refine ⟨d2, hd2, ?_⟩
    rw [hdep, hv1, hv]
    simp [sqlEqStr]
  · intro a ha
    rw [final_acad_eq_acad5] at ha
    obtain ⟨s, hs, hm⟩ := acad5_matched sch t a ha
    obtain ⟨v, hv1, hv2⟩ := sqlEqInt_true.mp hm
    obtain ⟨s2, hs2, hv⟩ := final_student_of_stu1 sch t h1 h2 ⟨s, hs, hv2⟩
    refine ⟨s2, hs2, ?_⟩
    rw [hv1, hv]
    simp [sqlEqInt]

/-- C3 witness: the amended no-dangling property on `dupTables`, whose issue
set has duplicates in every table but no student-dropping repair. -/
theorem c3_witness :
    (∀ e ∈ (clean_data_quality_issues ⟨false, false⟩ dupTables
        (validate_data_quality ⟨false, false⟩ dupTables).2).enrollments,
      ∃ s ∈ (clean_data_quality_issues ⟨false, false⟩ dupTables
        (validate_data_quality ⟨false, false⟩ dupTables).2).student,
        sqlEqInt e.emplid s.emplid) ∧
    (∀ e ∈ (clean_data_quality_issues ⟨false, false⟩ dupTables
        (validate_data_quality ⟨false, false⟩ dupTables).2).enrollments,
      ∃ d ∈ (clean_data_quality_issues ⟨false, false⟩ dupTables
        (validate_data_quality ⟨false, false⟩ dupTables).2).departments,
        sqlEqStr e.department d.dept_code) ∧
    (∀ a ∈ (clean_data_quality_issues ⟨false, false⟩ dupTables
        (validate_data_quality ⟨false, false⟩ dupTables).2).acad_prog,
      ∃ s ∈ (clean_data_quality_issues ⟨false, false⟩ dupTables
        (validate_data_quality ⟨false, false⟩ dupTables).2).student,
        sqlEqInt a.emplid s.emplid) :=
  c3_no_dangling_refs ⟨false, false⟩ dupTables (by decide) (by decide)

theorem leOptIntDesc_refl (a : Option Int) : leOptIntDesc a a := by
  cases a <;> simp [leOptIntDesc]

theorem rdLE_refl (a : RDBase) : rdLE a a := by
  unfold rdLE
  rw [if_pos rfl]
  exact leOptStrAsc_refl _

theorem rdLE_unpack {a b : RDBase} (h : rdLE a b = true) :
    leOptIntDesc a.dept_credits b.dept_credits = true ∧
    (a.dept_credits = b.dept_credits →
      leOptStrAsc a.dept_name b.dept_name = true) := by
  unfold rdLE at h
  by_cases hc : a.dept_credits = b.dept_credits
  · rw [if_pos hc] at h
    exact ⟨by rw [hc]; exact leOptIntDesc_refl _, fun _ => h⟩
  · rw [if_neg hc] at h
    exact ⟨h, fun hcc => absurd hcc hc⟩

theorem ranked_row_key {t : Tables} {g : (Option Int × Option String) × List RDBase}
    (hg : g ∈ rankedGroups t) {r : RDRow}
    (hr : r ∈ withRn 1 (sortStable rdLE g.2)) :
    (r.student_id, r.term) = g.1 := by
  obtain ⟨a, ha, hra, -⟩ := mem_withRn hr
  have hag : a ∈ g.2 := mem_sortStable.mp ha
  have := (mem_of_mem_group hg hag).2
  rw [hra]
  exact this

/-- A dataset where two departments tie on summed credits in the same
student-term; the display names decide. -/
def tieTables : Tables :=
  { student := [{ emplid := some 1, last_name := some "A" }],
    acad_prog := [],
    departments := [{ dept_code := some "ZZ", dept_name := some "Zoology",
                      contact_person := none },
                    { dept_code := some "BB", dept_name := some "Biology",
                      contact_person := none }],
    enrollments :=
      [{ emplid := some 1, strm := some "T", department := some "ZZ",
         credit_hours := some 3, course_id := none, class_nbr := none },
       { emplid := some 1, strm := some "T", department := some "BB",
         credit_hours := some 3, course_id := some "X", class_nbr := none }] }

/-- C5: the focused department of each (student, term) is the rank-1 row of
the window ordered by summed credits descending with ties broken by display
name ascending.  First conjunct: the display name of every joined row is
`dept_name` of the matched department when non-null, else the department
code.  Second conjunct: the rank-1 row of every partition comes from that
partition and is minimal in the window order against every row of the
partition — its credits are no smaller, and on equal credits its display
name sorts no later; in particular, when two departments tie on credits the
alphabetically first display name is chosen. -/
theorem c5_focused_department_rank1 (t : Tables) :
    (∀ rb ∈ cbdJoinDepts (credits_by_dept t.enrollments) t.departments,
      rb.dept_name = rb.dept_code ∨
      ∃ d ∈ t.departments, sqlEqStr rb.dept_code d.dept_code = true ∧
        d.dept_name ≠ none ∧ rb.dept_name = d.dept_name) ∧
    (∀ r ∈ ranked_depts t, r.rn = 1 →
      ∀ g ∈ rankedGroups t, g.1 = (r.student_id, r.term) →
        ∃ a ∈ g.2, r = toRDRow a 1 ∧
          ∀ b ∈ g.2, leOptIntDesc a.dept_credits b.dept_credits = true ∧
            (a.dept_credits = b.dept_credits →
              leOptStrAsc a.dept_name b.dept_name = true)) := by
  constructor
  · intro rb hrb
    unfold cbdJoinDepts at hrb
    obtain ⟨c, hc, hrb⟩ := List.mem_flatMap.mp hrb
    rcases hms : t.departments.filter
        (fun d => sqlEqStr c.dept_code d.dept_code) with _ | ⟨d, ds⟩
    · rw [hms] at hrb
      simp only [List.mem_singleton] at hrb
      subst hrb
      exact Or.inl rfl
    · rw [hms] at hrb
      obtain ⟨d2, hd2, rfl⟩ := List.mem_map.mp hrb
      have hd2m : d2 ∈ t.departments.filter
          (fun d => sqlEqStr c.dept_code d.dept_code) := by
        rw [hms]
        exact hd2
      obtain ⟨hd2dep, hd2match⟩ := List.mem_filter.mp hd2m
      rcases hdn : d2.dept_name with _ | nm
      · left
        rfl
      · right
        exact ⟨d2, hd2dep, hd2match,
          by rw [hdn]; exact Option.some_ne_none nm, by rw [hdn]⟩
  · intro r hr h1 g hg hkey
    unfold ranked_depts at hr
    obtain ⟨g2, hg2, hr⟩ := List.mem_flatMap.mp hr
    have hk2 : (r.student_id, r.term) = g2.1 := ranked_row_key hg2 hr
    have hgg : g = g2 := by
      by_contra hne
      have hpair := (groupsBy_keys_pairwise
        (fun x : RDBase => (x.student_id, x.term))
        (cbdJoinDepts (credits_by_dept t.enrollments) t.departments)).forall
        (fun x y h => fun he => h he.symm) hg hg2 hne
      exact hpair (by rw [hkey, hk2])
    subst hgg
    obtain ⟨a, tl, hsort, hra⟩ := withRn_rn_one hr h1
    have hamem : a ∈ g.2 := mem_sortStable.mp (by rw [hsort]; exact List.mem_cons_self a tl)
    refine ⟨a, hamem, hra, ?_⟩
    intro b hb
    have hble : rdLE a b = true := by
      have hbs : b ∈ sortStable rdLE g.2 := mem_sortStable.mpr hb
      rw [hsort] at hbs
      rcases List.mem_cons.mp hbs with rfl | hbtl
      · exact rdLE_refl b
      · have hsorted := sortStable_pairwise rdLE_trans rdLE_total g.2
        rw [hsort, List.pairwise_cons] at hsorted
        exact hsorted.1 b hbtl
    exact rdLE_unpack hble

/-- C5 witness: on `tieTables` the two departments tie at 3 credits each and
the rank-1 row for student 1, term T is Biology, minimal in the window
order over its partition. -/
theorem c5_witness :
    ∃ a ∈ ((some (1 : Int), some "T"),
        [({ student_id := some 1, term := some "T", dept_code := some "ZZ",
            dept_name := some "Zoology", dept_contact := none,
            dept_credits := some 3 } : RDBase),
         ({ student_id := some 1, term := some "T", dept_code := some "BB",
            dept_name := some "Biology", dept_contact := none,
            dept_credits := some 3 } : RDBase)]).2,
      ({ student_id := some 1, term := some "T", dept_code := some "BB",
         dept_name := some "Biology", dept_contact := none,
         rn := 1 } : RDRow) = toRDRow a 1 ∧
      ∀ b ∈ ((some (1 : Int), some "T"),
        [({ student_id := some 1, term := some "T", dept_code := some "ZZ",
            dept_name := some "Zoology", dept_contact := none,
            dept_credits := some 3 } : RDBase),
         ({ student_id := some 1, term := some "T", dept_code := some "BB",
            dept_name := some "Biology", dept_contact := none,
            dept_credits := some 3 } : RDBase)]).2,
        leOptIntDesc a.dept_credits b.dept_credits = true ∧
          (a.dept_credits = b.dept_credits →
            leOptStrAsc a.dept_name b.dept_name = true) :=
  (c5_focused_department_rank1 tieTables).2
    { student_id := some 1, term := some "T", dept_code := some "BB",
      dept_name := some "Biology", dept_contact := none, rn := 1 }
    (by decide) (by decide) _ (by decide) (by decide)

/-! ### Report-shape lemmas -/

theorem mem_total_credits {l : List EnrollmentRow} {tr : TCRow}
    (h : tr ∈ total_credits l) :
    ∃ e ∈ l, e.emplid = tr.student_id ∧ e.strm = tr.term := by
  unfold total_credits at h
  obtain ⟨g, hg, rfl⟩ := List.mem_map.mp h
  obtain ⟨⟨a, ha, hka⟩, -⟩ := mem_groupsBy.mp hg
  rw [Prod.mk.injEq] at hka
  exact ⟨a, ha, hka.1, hka.2⟩

theorem total_credits_of_enr {l : List EnrollmentRow} {e : EnrollmentRow}
    (he : e ∈ l) :
    ∃ tr ∈ total_credits l, tr.student_id = e.emplid ∧ tr.term = e.strm := by
  obtain ⟨g, hg, hk, -⟩ :=
    @exists_group EnrollmentRow (Option Int × Option String) _
      (fun e => (e.emplid, e.strm)) l e he
  refine ⟨⟨g.1.1, g.1.2, sqlSumCredits g.2⟩, ?_, ?_, ?_⟩
  · unfold total_credits
    exact List.mem_map_of_mem _ hg
  · rw [hk]
  · rw [hk]

theorem total_credits_pairwise (l : List EnrollmentRow) :
    (total_credits l).Pairwise
      (fun a b => (a.student_id, a.term) ≠ (b.student_id, b.term)) := by
  unfold total_credits
  rw [List.pairwise_map]
  refine (groupsBy_keys_pairwise _ _).imp ?_
  intro g h hne heq
  apply hne
  rw [Prod.mk.injEq] at heq
  rw [Prod.ext heq.1 heq.2]

theorem rdMatchPred_true {tr : TCRow} {r : RDRow}
    (h : ((r.rn == 1) && sqlEqInt tr.student_id r.student_id &&
      sqlEqStr tr.term r.term) = true) :
    r.rn = 1 ∧ ∃ v w, tr.student_id = some v ∧ r.student_id = some v ∧
      tr.term = some w ∧ r.term = some w := by
  rw [Bool.and_eq_true, Bool.and_eq_true] at h
  obtain ⟨⟨h1, h2⟩, h3⟩ := h
  obtain ⟨v, hv1, hv2⟩ := sqlEqInt_true.mp h2
  obtain ⟨w, hw1, hw2⟩ := sqlEqStr_true.mp h3
  exact ⟨by simpa using h1, v, w, hv1, hv2, hw1, hw2⟩

theorem rdMatches_le_one (t : Tables) (tr : TCRow) :
    (rdMatches t tr).length ≤ 1 := by
  unfold rdMatches
  refine filter_length_le_one_of_pairwise ?_
  unfold ranked_depts
  rw [List.pairwise_flatMap]
  constructor
  · intro g hg
    refine (withRn_pairwise_rn 1 _).imp ?_
    intro r q hrn hpq
    obtain ⟨hp, hq⟩ := hpq
    exact hrn (by rw [(rdMatchPred_true hp).1, (rdMatchPred_true hq).1])
  · refine List.Pairwise.imp_of_mem ?_
      (groupsBy_keys_pairwise (fun x : RDBase => (x.student_id, x.term))
        (cbdJoinDepts (credits_by_dept t.enrollments) t.departments))
    intro g g2 hg hg2 hne x hx y hy hpq
    obtain ⟨hpx, hpy⟩ := hpq
    obtain ⟨-, v, w, hv1, hxv, hw1, hxw⟩ := rdMatchPred_true hpx
    obtain ⟨-, v2, w2, hv2, hyv, hw2, hyw⟩ := rdMatchPred_true hpy
    have hkx : (x.student_id, x.term) = g.1 := ranked_row_key hg hx
    have hky : (y.student_id, y.term) = g2.1 := ranked_row_key hg2 hy
    apply hne
    rw [← hkx, ← hky, hxv, hxw, hyv, hyw]
    rw [hv1] at hv2
    rw [hw1] at hw2
    rw [Option.some_inj.mp hv2, Option.some_inj.mp hw2]

theorem reportRowsFor_singleton (t : Tables) (tr : TCRow)
    (hstu : t.student.Pairwise (fun a b => a.emplid ≠ b.emplid)) :
    ∃ r0, reportRowsFor t tr = [r0] := by
  have hrd := rdMatches_le_one t tr
  have hsm : (stuMatches t tr).length ≤ 1 := stuMatches_le_one hstu tr.student_id
  unfold reportRowsFor
  rcases hms : rdMatches t tr with _ | ⟨m, ms⟩ <;>
    rcases hsm2 : stuMatches t tr with _ | ⟨s, ss⟩
  · exact ⟨_, rfl⟩
  · rw [hsm2] at hsm
    have hss : ss = [] := by
      simp only [List.length_cons] at hsm
      exact List.length_eq_zero.mp (by omega)
    subst hss
    exact ⟨_, rfl⟩
  · rw [hms] at hrd
    have hmsnil : ms = [] := by
      simp only [List.length_cons] at hrd
      exact List.length_eq_zero.mp (by omega)
    subst hmsnil
    exact ⟨_, rfl⟩
  · rw [hms] at hrd
    rw [hsm2] at hsm
    have hmsnil : ms = [] := by
      simp only [List.length_cons] at hrd
      exact List.length_eq_zero.mp (by omega)
    have hss : ss = [] := by
      simp only [List.length_cons] at hsm
      exact List.length_eq_zero.mp (by omega)
    subst hmsnil
    subst hss
    exact ⟨_, rfl⟩

theorem rdMatches_congr {t : Tables} {tr tr2 : TCRow}
    (h1 : tr.student_id = tr2.student_id) (h2 : tr.term = tr2.term) :
    rdMatches t tr = rdMatches t tr2 := by
  unfold rdMatches
  apply List.filter_congr
  intro r hr
  rw [h1, h2]

/-- C6: the report has exactly one row per (student, term) pair with at least
one enrollment (a row exists for a pair iff the pair is enrolled, and no two
rows share a pair), its rows are sorted ascending by (student_id, term), and
a student-term whose rank-1 lookup finds no department row still appears,
with NULL department fields.  The hypothesis is the post-clean/post-enforce
uniqueness of Student EMPLIDs, without which the student join could multiply
rows. -/
theorem c6_report_shape (t : Tables)
    (hstu : t.student.Pairwise (fun a b => a.emplid ≠ b.emplid)) :
    (∀ (sid : Option Int) (term : Option String),
      (∃ e ∈ t.enrollments, e.emplid = sid ∧ e.strm = term) ↔
      (∃ r ∈ final_select t, r.student_id = sid ∧ r.term = term)) ∧
    ((final_select t).Pairwise
      (fun r q => (r.student_id, r.term) ≠ (q.student_id, q.term))) ∧
    ((final_select t).Pairwise (fun r q => reportLE r q = true)) ∧
    (∀ r ∈ final_select t,
      rdMatches t { student_id := r.student_id, term := r.term,
                    total_credits := r.total_credits } = [] →
      r.focused_department_name = none ∧
        r.focused_department_contact = none) := by
  refine ⟨?_, ?_, ?_, ?_⟩
  · intro sid term
    constructor
    · rintro ⟨e, he, h1, h2⟩
      obtain ⟨tr, htr, ht1, ht2⟩ := total_credits_of_enr he
      obtain ⟨r0, hr0⟩ := reportRowsFor_singleton t tr hstu
      have hr0m : r0 ∈ reportRowsFor t tr := by
        rw [hr0]
        exact List.mem_singleton.mpr rfl
      have hp := mem_reportRowsFor hr0m
      refine ⟨r0, ?_, ?_, ?_⟩
      · unfold final_select
        exact mem_sortStable.mpr (List.mem_flatMap.mpr ⟨tr, htr, hr0m⟩)
      · rw [hp.1, ht1, h1]
      · rw [hp.2.1, ht2, h2]
    · rintro ⟨r, hr, h1, h2⟩
      obtain ⟨tr, htr, hrr⟩ := mem_final_select hr
      obtain ⟨e, he, he1, he2⟩ := mem_total_credits htr
      have hp := mem_reportRowsFor hrr
      exact ⟨e, he, by rw [he1, ← hp.1, h1], by rw [he2, ← hp.2.1, h2]⟩
  · have hrows : ((total_credits t.enrollments).flatMap
        (reportRowsFor t)).Pairwise
        (fun r q => (r.student_id, r.term) ≠ (q.student_id, q.term)) := by
      rw [List.pairwise_flatMap]
      constructor
      · intro tr htr
        obtain ⟨r0, hr0⟩ := reportRowsFor_singleton t tr hstu
        rw [hr0]
        exact List.pairwise_singleton _ _
      · refine (total_credits_pairwise t.enrollments).imp ?_
        intro tr tr2 hne x hx y hy heq
        have hx2 := mem_reportRowsFor hx
        have hy2 := mem_reportRowsFor hy
        apply hne
        rw [← hx2.1, ← hx2.2.1, ← hy2.1, ← hy2.2.1]
        exact heq
    unfold final_select
    exact (List.Perm.pairwise_iff (fun h he => h he.symm)
      (sortStable_perm _ _)).mpr hrows
  · unfold final_select
    exact sortStable_pairwise reportLE_trans reportLE_total _
  · intro r hr hnull
    obtain ⟨tr, htr, hrr⟩ := mem_final_select hr
    have hp := mem_reportRowsFor hrr
    rcases hp.2.2.2.1 with ⟨-, hn1, hn2⟩ | ⟨rd, hrd, -, -⟩
    · exact ⟨hn1, hn2⟩
    · exfalso
      have hcong : rdMatches t tr = rdMatches t { student_id := r.student_id,
                                                  term := r.term,
                                                  total_credits := r.total_credits } :=
        rdMatches_congr hp.1.symm hp.2.1.symm
      rw [hcong, hnull] at hrd
      exact absurd hrd (List.not_mem_nil rd)

/-- C6 witness: the report-ordering conjunct instantiated on
`noContactTables`, whose student table is EMPLID-unique. -/
theorem c6_witness :
    (final_select noContactTables).Pairwise (fun r q => reportLE r q = true) :=
  (c6_report_shape noContactTables (by decide)).2.2.1

end KU
